import Mathlib

/-! Flux: profilers (`execute`), the semantic-graph walker (`semantic`) and the
builtin conversions (`stdlib/universe`).

A shallow embedding of

* the operator and query profilers exercised by `execute/profiler_test.go`
  (`execute/profiler.go` itself is not among the sources, so the profilers are
  modelled from the specification and pinned to the tables the tests expect);
* `semantic/walk.go`, translated case by case;
* `stdlib/universe/typeconv.go`, translated method by method, with the
  functions of other packages it calls taken as parameters.

Durations, timestamps and counters are Go `int64` values; they are embedded as
`Int`, i.e. in the range where no 64-bit overflow occurs.  The floating point
mean is embedded as the exact rational `sum / count`.
-/

set_option autoImplicit false

namespace execute

/-! ## Tables -/

/-- Column types of a flux table that the profilers use
(`long`, `string`, `double` in the annotated CSV of the tests). -/
inductive ColType where
  | TString
  | TInt
  | TFloat
deriving DecidableEq, Repr

/-- Column label and type. -/
structure ColMeta where
  Label : String
  Typ : ColType
deriving DecidableEq, Repr

/-- Cell of a table: a string, a signed 64-bit integer or a float
(embedded as a rational). -/
inductive Value where
  | str (s : String)
  | int (i : Int)
  | float (q : ℚ)
deriving DecidableEq, Repr

/-- Column type of a cell. -/
def Value.colType : Value → ColType
  | .str _ => .TString
  | .int _ => .TInt
  | .float _ => .TFloat

/-- Table as the tests compare it: the group key (label and value of each key
column), the columns in order, and the rows. -/
structure Table where
  key : List (String × Value)
  cols : List ColMeta
  rows : List (List Value)
deriving DecidableEq, Repr

/-! ## Operator profiler -/

/-- Modelled from the spec: the per-label statistic of `execute/profiler.go`
(missing from the sources): count, min, max and sum of the reported durations
in nanoseconds; the mean is derived at read time. -/
structure OperationStatistic where
  count : Int
  minDuration : Int
  maxDuration : Int
  sumDuration : Int
deriving DecidableEq, Repr

/-- Modelled from the spec: the statistic inserted for a new label,
`{count:1, min:d, max:d, sum:d}`. -/
def OperationStatistic.first (d : Int) : OperationStatistic :=
  OperationStatistic.mk 1 d d d

/-- Modelled from the spec: the update of an existing statistic,
`count += 1, min = min(min, d), max = max(max, d), sum += d`. -/
def OperationStatistic.add (s : OperationStatistic) (d : Int) : OperationStatistic :=
  OperationStatistic.mk (s.count + 1) (min s.minDuration d) (max s.maxDuration d)
    (s.sumDuration + d)

/-- Modelled from the spec: the mean, `sum/count`, derived at read time. -/
def OperationStatistic.mean (s : OperationStatistic) : ℚ :=
  (s.sumDuration : ℚ) / (s.count : ℚ)

/-- Modelled from the spec: the state `label → OperationStatistic` of the
operator profiler of `execute/profiler.go` (missing from the sources), kept as
an association list in order of first report. -/
structure OperatorProfiler where
  stats : List (String × OperationStatistic)
deriving DecidableEq, Repr

/-- Profiler that has received no report. -/
def OperatorProfiler.empty : OperatorProfiler := OperatorProfiler.mk []

/-- Modelled from the spec: the report algorithm on the entries: a new label is
inserted, an existing one is updated in place. -/
def reportInto : List (String × OperationStatistic) → String → Int →
    List (String × OperationStatistic)
  | [], L, d => [(L, OperationStatistic.first d)]
  | (k, s) :: rest, L, d =>
    if k = L then (k, s.add d) :: rest else (k, s) :: reportInto rest L d

/-- Modelled from the spec: report of duration `d` under label `L`. -/
def OperatorProfiler.report (p : OperatorProfiler) (L : String) (d : Int) : OperatorProfiler :=
  OperatorProfiler.mk (reportInto p.stats L d)

/-- Statistic kept for a label, if any. -/
def lookupIn : List (String × OperationStatistic) → String → Option OperationStatistic
  | [], _ => none
  | (k, s) :: rest, L => if k = L then some s else lookupIn rest L

/-- Modelled from the spec: the statistic of a label after a report of `d`,
from the statistic before (`none` when the label is new). -/
def combine (o : Option OperationStatistic) (d : Int) : Option OperationStatistic :=
  match o with
  | some s => some (s.add d)
  | none => some (OperationStatistic.first d)

/-- Statistic kept for a label, if any. -/
def OperatorProfiler.lookup (p : OperatorProfiler) (L : String) : Option OperationStatistic :=
  lookupIn p.stats L

/-- A finite sequence of `(label, duration)` reports, applied in order. -/
def OperatorProfiler.reportAll (p : OperatorProfiler) (rs : List (String × Int)) :
    OperatorProfiler :=
  rs.foldl (fun q r => q.report r.1 r.2) p

/-- Labels that have a statistic, in row order. -/
def OperatorProfiler.labels (p : OperatorProfiler) : List String :=
  p.stats.map Prod.fst

/-- Measurement tag of the operator profiler (the `_measurement` value of the
expected row in `TestOperatorProfiler_GetResult`). -/
def operatorMeasurement : String := "profiler/operator"

/-- Columns of the operator profiler table.  They are taken from the header of
the expected table in `TestOperatorProfiler_GetResult`, not from the row
format of the specification, which also lists an operation label column. -/
def operatorColMeta : List ColMeta :=
  [ ColMeta.mk "_measurement" ColType.TString,
    ColMeta.mk "OperationCount" ColType.TInt,
    ColMeta.mk "MinimumDuration" ColType.TInt,
    ColMeta.mk "MaximumDuration" ColType.TInt,
    ColMeta.mk "DurationSum" ColType.TInt,
    ColMeta.mk "MeanDuration" ColType.TFloat ]

/-- Row rendered for one statistic: measurement tag, count, min, max, sum,
mean.  The cells are those of the expected row in
`TestOperatorProfiler_GetResult`; the row format of the specification has an
operation label cell after the tag, which that row does not have. -/
def operatorRow (s : OperationStatistic) : List Value :=
  [ Value.str operatorMeasurement, Value.int s.count, Value.int s.minDuration,
    Value.int s.maxDuration, Value.int s.sumDuration, Value.float s.mean ]

/-- Modelled from the spec: `OperatorProfiler.GetResult` of `execute/profiler.go`
(missing from the sources): one row per label, grouped by the constant
measurement tag; it never fails.  The columns of a row are not modelled from
the specification: they are `operatorColMeta` and `operatorRow`, read off the
table that `TestOperatorProfiler_GetResult` expects. -/
def OperatorProfiler.GetResult (p : OperatorProfiler) : Except String Table :=
  Except.ok (Table.mk [("_measurement", Value.str operatorMeasurement)] operatorColMeta
    (p.stats.map fun e => operatorRow e.2))

/-! ## Spans -/

/-- Modelled from the spec: the profiling span of `execute/profiler.go`
(missing from the sources) as `TestOperatorProfiler_GetResult` creates it:
operation name, label, and the caller-supplied start time in nanoseconds. -/
structure OperatorProfilingSpan where
  operationName : String
  label : String
  start : Int
deriving DecidableEq, Repr

/-- Modelled from the spec: `StartSpanFromContext(ctx, operationName, label,
opentracing.StartTime(st))`: the start time is the one passed in. -/
def StartSpanFromContext (operationName label : String) (st : Int) : OperatorProfilingSpan :=
  OperatorProfilingSpan.mk operationName label st

/-- Modelled from the spec: `FinishWithOptions` with an explicit finish time
pushes `finish − start` into the profiler.  The key is the operation name: the
test finishes spans with labels `op0` and `op1` under the operation `tf` and
expects one row with count 2. -/
def OperatorProfilingSpan.FinishWithOptions (span : OperatorProfilingSpan) (FinishTime : Int)
    (p : OperatorProfiler) : OperatorProfiler :=
  p.report span.operationName (FinishTime - span.start)

/-- Nanoseconds since the Unix epoch of
`time.Date(2020, 10, 14, 12, 30, 0, nsec, time.UTC)`. -/
def testTime (nsec : Int) : Int := 1602678600 * 1000000000 + nsec

/-- The goroutine body `fn` of `TestOperatorProfiler_GetResult`. -/
def testFn (label : String) (offset : Int) (p : OperatorProfiler) : OperatorProfiler :=
  (StartSpanFromContext "tf" label (testTime 0)).FinishWithOptions (testTime (1234 + offset)) p

/-- Profiler state of `TestOperatorProfiler_GetResult` after both goroutines
(`i = 0` then `i = 1`) have finished their spans. -/
def testOperatorProfiler : OperatorProfiler :=
  testFn "op1" (100 * (1 + 1)) (testFn "op0" (100 * (0 + 1)) OperatorProfiler.empty)

/-- The table `wantStr` of `TestOperatorProfiler_GetResult` decodes to. -/
def TestOperatorProfiler_want : Table :=
  Table.mk [("_measurement", Value.str "profiler/operator")]
    [ ColMeta.mk "_measurement" ColType.TString,
      ColMeta.mk "OperationCount" ColType.TInt,
      ColMeta.mk "MinimumDuration" ColType.TInt,
      ColMeta.mk "MaximumDuration" ColType.TInt,
      ColMeta.mk "DurationSum" ColType.TInt,
      ColMeta.mk "MeanDuration" ColType.TFloat ]
    [ [ Value.str "profiler/operator", Value.int 2, Value.int 1334, Value.int 1434,
        Value.int 2768, Value.float 1384 ] ]

/-! ## Query profiler -/

/-- Order on strings used for the metadata columns: lexicographic on the
characters, as Go compares strings. -/
def leChars : List Char → List Char → Bool
  | [], _ => true
  | _ :: _, [] => false
  | a :: as, b :: bs => a.toNat < b.toNat || (a.toNat == b.toNat && leChars as bs)

/-- Ascending key order of the metadata columns. -/
def keyLE (a b : String) : Bool := leChars a.toList b.toList

/-- Metadata value (`interface{}` in `metadata.Metadata`): a number, a string
(the two kinds the test stores), or a value of any other kind, named by
`descr`. -/
inductive MetaValue where
  | int (i : Int)
  | str (s : String)
  | other (descr : String)
deriving DecidableEq, Repr

/-- The `flux.Statistics` literal of `TestQueryProfiler_GetResult`, field by
field.  `Metadata` maps a key to an ordered list of values
(`map[string][]interface{}`), kept as the list of its entries. -/
structure Statistics where
  TotalDuration : Int
  CompileDuration : Int
  QueueDuration : Int
  PlanDuration : Int
  RequeueDuration : Int
  ExecuteDuration : Int
  Concurrency : Int
  MaxAllocated : Int
  TotalAllocated : Int
  RuntimeErrors : List String
  Metadata : List (String × List MetaValue)
deriving DecidableEq, Repr

/-- The query object of the test (`mock.Query`): its statistics and whether it
has signaled completion. -/
structure Query where
  stats : Statistics
  done : Bool
deriving DecidableEq, Repr

/-- Statistics of a query on which nothing was set (Go zero value). -/
def Statistics.zero : Statistics :=
  Statistics.mk 0 0 0 0 0 0 0 0 0 [] []

/-- The query `&mock.Query{}`. -/
def Query.new : Query := Query.mk Statistics.zero false

/-- The call `q.SetStatistics(stats)`. -/
def Query.SetStatistics (q : Query) (stats : Statistics) : Query := Query.mk stats q.done

/-- The call `q.Done()`. -/
def Query.Done (q : Query) : Query := Query.mk q.stats true

/-- Measurement tag of the query profiler (the `_measurement` value of the
expected row in `TestQueryProfiler_GetResult`). -/
def queryMeasurement : String := "profiler/query"

/-- Fixed columns of the query profiler table, as the header of the expected
table in `TestQueryProfiler_GetResult` lists them. -/
def queryColMeta : List ColMeta :=
  [ ColMeta.mk "_measurement" ColType.TString,
    ColMeta.mk "TotalDuration" ColType.TInt,
    ColMeta.mk "CompileDuration" ColType.TInt,
    ColMeta.mk "QueueDuration" ColType.TInt,
    ColMeta.mk "PlanDuration" ColType.TInt,
    ColMeta.mk "RequeueDuration" ColType.TInt,
    ColMeta.mk "ExecuteDuration" ColType.TInt,
    ColMeta.mk "Concurrency" ColType.TInt,
    ColMeta.mk "MaxAllocated" ColType.TInt,
    ColMeta.mk "TotalAllocated" ColType.TInt,
    ColMeta.mk "RuntimeErrors" ColType.TString ]

/-- Cells of the fixed columns: the runtime errors are joined by a newline. -/
def queryCells (s : Statistics) : List Value :=
  [ Value.str queryMeasurement, Value.int s.TotalDuration, Value.int s.CompileDuration,
    Value.int s.QueueDuration, Value.int s.PlanDuration, Value.int s.RequeueDuration,
    Value.int s.ExecuteDuration, Value.int s.Concurrency, Value.int s.MaxAllocated,
    Value.int s.TotalAllocated, Value.str (String.intercalate "\n" s.RuntimeErrors) ]

/-- Modelled from the spec: the cell of a metadata column, from the value list
of its key: a number passes through as an integer, a string as a string.  The
specification does not say how a list of several values, an empty list or a
value of another kind becomes a cell: that is left to `render`. -/
def metaCell (render : List MetaValue → Value) : List MetaValue → Value
  | [MetaValue.int i] => Value.int i
  | [MetaValue.str s] => Value.str s
  | vs => render vs

/-- Column of a metadata key, typed by its cell. -/
def metaCol (render : List MetaValue → Value) (e : String × List MetaValue) : ColMeta :=
  ColMeta.mk e.1 (metaCell render e.2).colType

/-- Metadata entries in ascending key order. -/
def sortMetadata (m : List (String × List MetaValue)) : List (String × List MetaValue) :=
  List.insertionSort (fun a b => keyLE a.1 b.1 = true) m

/-- Modelled from the spec: `QueryProfiler.GetResult` of `execute/profiler.go`
(missing from the sources): for a query that has signaled completion, one row
with the fixed columns followed by one column per metadata key in ascending
key order; for a query that has not, the explicit absent result.  `render` is
the rendering of the value lists that the specification leaves open (see
`metaCell`).  On the query of `TestQueryProfiler_GetResult` the table is the
one the test expects. -/
def QueryProfiler.GetResult (render : List MetaValue → Value) (q : Query) :
    Except String (Option Table) :=
  if q.done then
    Except.ok (some (Table.mk [("_measurement", Value.str queryMeasurement)]
      (queryColMeta ++ (sortMetadata q.stats.Metadata).map (metaCol render))
      [queryCells q.stats ++
        (sortMetadata q.stats.Metadata).map fun e => metaCell render e.2]))
  else
    Except.ok none

/-- The query of `TestQueryProfiler_GetResult` at the call of `GetResult`. -/
def testQuery : Query :=
  (Query.new.SetStatistics (Statistics.mk 1 2 3 4 5 6 7 8 9 ["1", "2"]
    [ ("influxdb/scanned-bytes", [MetaValue.int 10]),
      ("influxdb/scanned-values", [MetaValue.int 11]),
      ("flux/query-plan", [MetaValue.str "query plan"]) ])).Done

/-- The table `wantStr` of `TestQueryProfiler_GetResult` decodes to. -/
def TestQueryProfiler_want : Table :=
  Table.mk [("_measurement", Value.str "profiler/query")]
    [ ColMeta.mk "_measurement" ColType.TString,
      ColMeta.mk "TotalDuration" ColType.TInt,
      ColMeta.mk "CompileDuration" ColType.TInt,
      ColMeta.mk "QueueDuration" ColType.TInt,
      ColMeta.mk "PlanDuration" ColType.TInt,
      ColMeta.mk "RequeueDuration" ColType.TInt,
      ColMeta.mk "ExecuteDuration" ColType.TInt,
      ColMeta.mk "Concurrency" ColType.TInt,
      ColMeta.mk "MaxAllocated" ColType.TInt,
      ColMeta.mk "TotalAllocated" ColType.TInt,
      ColMeta.mk "RuntimeErrors" ColType.TString,
      ColMeta.mk "flux/query-plan" ColType.TString,
      ColMeta.mk "influxdb/scanned-bytes" ColType.TInt,
      ColMeta.mk "influxdb/scanned-values" ColType.TInt ]
    [ [ Value.str "profiler/query", Value.int 1, Value.int 2, Value.int 3, Value.int 4,
        Value.int 5, Value.int 6, Value.int 7, Value.int 8, Value.int 9, Value.str "1\n2",
        Value.str "query plan", Value.int 10, Value.int 11 ] ]

end execute

namespace semantic

/-! ## Semantic graph and `walk` -/

/-- The pointer types `walk` switches on, in the order of its cases. -/
inductive Kind where
  | Program | Extern | BlockStatement | OptionStatement | ExpressionStatement
  | ReturnStatement | NativeVariableDeclaration | ExternalVariableDeclaration
  | FunctionExpression | FunctionDefaults | FunctionParameterDefault | FunctionBlock
  | FunctionParameters | FunctionParameter | ArrayExpression | BinaryExpression
  | CallExpression | ConditionalExpression | IdentifierExpression | LogicalExpression
  | MemberExpression | ObjectExpression | UnaryExpression | Identifier | Property
  | BooleanLiteral | DateTimeLiteral | DurationLiteral | FloatLiteral | IntegerLiteral
  | RegexpLiteral | StringLiteral | UnsignedIntegerLiteral
deriving DecidableEq, Repr

/-- A `Node` value as `walk` receives it.  The node types are declared in
`semantic/graph.go`, which is not among the sources: each variant carries the
child fields `walk` follows, under their names in `walk.go`, and `info : α` for
the fields it does not follow (location, names, operators, literal values).
`nilInterface` is the nil `Node` interface value, `nilPointer k` the nil
pointer of type `k` stored in a `Node`. -/
inductive Node (α : Type) where
  | nilInterface
  | nilPointer (k : Kind)
  | Program (info : α) (Body : List (Node α))
  | Extern (info : α) (Declarations : List (Node α)) (Program : Node α)
  | BlockStatement (info : α) (Body : List (Node α))
  | OptionStatement (info : α) (Declaration : Node α)
  | ExpressionStatement (info : α) (Expression : Node α)
  | ReturnStatement (info : α) (Argument : Node α)
  | NativeVariableDeclaration (info : α) (Identifier : Node α) (Init : Node α)
  | ExternalVariableDeclaration (info : α) (Identifier : Node α)
  | FunctionExpression (info : α) (Defaults : Node α) (Block : Node α)
  | FunctionDefaults (info : α) (List : List (Node α))
  | FunctionParameterDefault (info : α) (Key : Node α) (Value : Node α)
  | FunctionBlock (info : α) (Parameters : Node α) (Body : Node α)
  | FunctionParameters (info : α) (List : List (Node α))
  | FunctionParameter (info : α) (Key : Node α)
  | ArrayExpression (info : α) (Elements : List (Node α))
  | BinaryExpression (info : α) (Left : Node α) (Right : Node α)
  | CallExpression (info : α) (Callee : Node α) (Arguments : Node α) (pipe : Option (Node α))
  | ConditionalExpression (info : α) (Test : Node α) (Alternate : Node α) (Consequent : Node α)
  | IdentifierExpression (info : α)
  | LogicalExpression (info : α) (Left : Node α) (Right : Node α)
  | MemberExpression (info : α) (Object : Node α)
  | ObjectExpression (info : α) (Properties : List (Node α))
  | UnaryExpression (info : α) (Argument : Node α)
  | Identifier (info : α)
  | Property (info : α) (Key : Node α) (Value : Node α)
  | BooleanLiteral (info : α)
  | DateTimeLiteral (info : α)
  | DurationLiteral (info : α)
  | FloatLiteral (info : α)
  | IntegerLiteral (info : α)
  | RegexpLiteral (info : α)
  | StringLiteral (info : α)
  | UnsignedIntegerLiteral (info : α)

/-- The `Visitor` interface.  `V` names the visitor objects and `σ` is the
state their methods read and write: `Visit` returns the visitor for the
children (`none` for nil) and the new state, `Done` the new state. -/
structure Visitor (α V σ : Type) where
  Visit : V → Node α → σ → Option V × σ
  Done : V → σ → σ

/-- A call that `walk` makes on a visitor. -/
inductive Event (α V : Type) where
  | visit (v : V) (n : Node α)
  | done (v : V)

/-- State of a run of `walk`: the visitors' state and the calls made so far. -/
structure Run (α V σ : Type) where
  state : σ
  trace : List (Event α V)

/-- The call `v.Visit(n)`: the returned visitor and the run after the call. -/
def callVisit {α V σ : Type} (vis : Visitor α V σ) (v : V) (n : Node α) (r : Run α V σ) :
    Option V × Run α V σ :=
  ((vis.Visit v n r.state).1, Run.mk (vis.Visit v n r.state).2 (r.trace ++ [Event.visit v n]))

/-- The call `v.Done()`. -/
def callDone {α V σ : Type} (vis : Visitor α V σ) (v : V) (r : Run α V σ) : Run α V σ :=
  Run.mk (vis.Done v r.state) (r.trace ++ [Event.done v])

/-- The body shared by the cases with children:
`w := v.Visit(n); if w != nil { kids }`. -/
def ifVisit {α V σ : Type} (vis : Visitor α V σ) (v : V) (n : Node α) (r : Run α V σ)
    (kids : V → Run α V σ → Run α V σ) : Run α V σ :=
  match callVisit vis v n r with
  | (some w, r1) => kids w r1
  | (none, r1) => r1

mutual
/-- The function `walk` of `semantic/walk.go`, case by case.  A nil pointer
returns from inside its case; every other case, and a value that matches no
case, falls through to the `v.Done()` that ends the function. -/
def walk {α V σ : Type} (vis : Visitor α V σ) (v : V) : Node α → Run α V σ → Run α V σ
  | .nilInterface, r => callDone vis v r
  | .nilPointer _, r => r
  | .Program i body, r =>
    callDone vis v (ifVisit vis v (.Program i body) r fun w r1 => walkList vis w body r1)
  | .Extern i decls prog, r =>
    callDone vis v (ifVisit vis v (.Extern i decls prog) r fun w r1 =>
      walk vis w prog (walkList vis w decls r1))
  | .BlockStatement i body, r =>
    callDone vis v (ifVisit vis v (.BlockStatement i body) r fun w r1 => walkList vis w body r1)
  | .OptionStatement i decl, r =>
    callDone vis v (ifVisit vis v (.OptionStatement i decl) r fun w r1 => walk vis w decl r1)
  | .ExpressionStatement i e, r =>
    callDone vis v (ifVisit vis v (.ExpressionStatement i e) r fun w r1 => walk vis w e r1)
  | .ReturnStatement i arg, r =>
    callDone vis v (ifVisit vis v (.ReturnStatement i arg) r fun w r1 => walk vis w arg r1)
  | .NativeVariableDeclaration i id init, r =>
    callDone vis v (ifVisit vis v (.NativeVariableDeclaration i id init) r fun w r1 =>
      walk vis w init (walk vis w id r1))
  | .ExternalVariableDeclaration i id, r =>
    callDone vis v (ifVisit vis v (.ExternalVariableDeclaration i id) r fun w r1 =>
      walk vis w id r1)
  | .FunctionExpression i defaults block, r =>
    callDone vis v (ifVisit vis v (.FunctionExpression i defaults block) r fun w r1 =>
      walk vis w block (walk vis w defaults r1))
  | .FunctionDefaults i list, r =>
    callDone vis v (ifVisit vis v (.FunctionDefaults i list) r fun w r1 => walkList vis w list r1)
  | .FunctionParameterDefault i key value, r =>
    callDone vis v (ifVisit vis v (.FunctionParameterDefault i key value) r fun w r1 =>
      walk vis w value (walk vis w key r1))
  | .FunctionBlock i params body, r =>
    callDone vis v (ifVisit vis v (.FunctionBlock i params body) r fun w r1 =>
      walk vis w body (walk vis w params r1))
  | .FunctionParameters i list, r =>
    callDone vis v (ifVisit vis v (.FunctionParameters i list) r fun w r1 =>
      walkList vis w list r1)
  | .FunctionParameter i key, r =>
    callDone vis v (ifVisit vis v (.FunctionParameter i key) r fun w r1 => walk vis w key r1)
  | .ArrayExpression i elements, r =>
    callDone vis v (ifVisit vis v (.ArrayExpression i elements) r fun w r1 =>
      walkList vis w elements r1)
  | .BinaryExpression i left right, r =>
    callDone vis v (ifVisit vis v (.BinaryExpression i left right) r fun w r1 =>
      walk vis w right (walk vis w left r1))
  | .CallExpression i callee args pipe, r =>
    callDone vis v (ifVisit vis v (.CallExpression i callee args pipe) r fun w r1 =>
      match pipe with
      | some p => walk vis w p (walk vis w args (walk vis w callee r1))
      | none => walk vis w args (walk vis w callee r1))
  | .ConditionalExpression i test alternate consequent, r =>
    callDone vis v (ifVisit vis v (.ConditionalExpression i test alternate consequent) r
      fun w r1 => walk vis w consequent (walk vis w alternate (walk vis w test r1)))
  | .IdentifierExpression i, r =>
    callDone vis v (callVisit vis v (.IdentifierExpression i) r).2
  | .LogicalExpression i left right, r =>
    callDone vis v (ifVisit vis v (.LogicalExpression i left right) r fun w r1 =>
      walk vis w right (walk vis w left r1))
  | .MemberExpression i object, r =>
    callDone vis v (ifVisit vis v (.MemberExpression i object) r fun w r1 => walk vis w object r1)
  | .ObjectExpression i properties, r =>
    callDone vis v (ifVisit vis v (.ObjectExpression i properties) r fun w r1 =>
      walkList vis w properties r1)
  | .UnaryExpression i arg, r =>
    callDone vis v (ifVisit vis v (.UnaryExpression i arg) r fun w r1 => walk vis w arg r1)
  | .Identifier i, r => callDone vis v (callVisit vis v (.Identifier i) r).2
  | .Property i key value, r =>
    callDone vis v (ifVisit vis v (.Property i key value) r fun w r1 =>
      walk vis w value (walk vis w key r1))
  | .BooleanLiteral i, r => callDone vis v (callVisit vis v (.BooleanLiteral i) r).2
  | .DateTimeLiteral i, r => callDone vis v (callVisit vis v (.DateTimeLiteral i) r).2
  | .DurationLiteral i, r => callDone vis v (callVisit vis v (.DurationLiteral i) r).2
  | .FloatLiteral i, r => callDone vis v (callVisit vis v (.FloatLiteral i) r).2
  | .IntegerLiteral i, r => callDone vis v (callVisit vis v (.IntegerLiteral i) r).2
  | .RegexpLiteral i, r => callDone vis v (callVisit vis v (.RegexpLiteral i) r).2
  | .StringLiteral i, r => callDone vis v (callVisit vis v (.StringLiteral i) r).2
  | .UnsignedIntegerLiteral i, r =>
    callDone vis v (callVisit vis v (.UnsignedIntegerLiteral i) r).2
/-- The loops `for _, s := range list { walk(w, s) }`. -/
def walkList {α V σ : Type} (vis : Visitor α V σ) (v : V) :
    List (Node α) → Run α V σ → Run α V σ
  | [], r => r
  | n :: ns, r => walkList vis v ns (walk vis v n r)
end

/-- The function `Walk`: a run of `walk` from state `s` with no call made yet. -/
def Walk {α V σ : Type} (vis : Visitor α V σ) (v : V) (node : Node α) (s : σ) : Run α V σ :=
  walk vis v node (Run.mk s [])

/-! ## Trees and traces -/

/-- Whether a node is nil: the nil interface value or a nil pointer. -/
def Node.isNil {α : Type} : Node α → Bool
  | .nilInterface => true
  | .nilPointer _ => true
  | _ => false

/-- The child fields of a node that `walk` follows, in the order in which its
case walks them (the pipe argument of a call only when it is present). -/
def Node.children {α : Type} : Node α → List (Node α)
  | .Program _ body => body
  | .Extern _ decls prog => decls ++ [prog]
  | .BlockStatement _ body => body
  | .OptionStatement _ decl => [decl]
  | .ExpressionStatement _ e => [e]
  | .ReturnStatement _ arg => [arg]
  | .NativeVariableDeclaration _ id init => [id, init]
  | .ExternalVariableDeclaration _ id => [id]
  | .FunctionExpression _ defaults block => [defaults, block]
  | .FunctionDefaults _ list => list
  | .FunctionParameterDefault _ key value => [key, value]
  | .FunctionBlock _ params body => [params, body]
  | .FunctionParameters _ list => list
  | .FunctionParameter _ key => [key]
  | .ArrayExpression _ elements => elements
  | .BinaryExpression _ left right => [left, right]
  | .CallExpression _ callee args pipe => [callee, args] ++ pipe.toList
  | .ConditionalExpression _ test alternate consequent => [test, alternate, consequent]
  | .LogicalExpression _ left right => [left, right]
  | .MemberExpression _ object => [object]
  | .ObjectExpression _ properties => properties
  | .UnaryExpression _ arg => [arg]
  | .Property _ key value => [key, value]
  | _ => []

mutual
/-- Pre-order listing of a tree: the node, then the listings of its children
in the order of `Node.children`. -/
def Node.subnodes {α : Type} : Node α → List (Node α)
  | .Program i body => .Program i body :: subnodesList body
  | .Extern i decls prog => .Extern i decls prog :: (subnodesList decls ++ prog.subnodes)
  | .BlockStatement i body => .BlockStatement i body :: subnodesList body
  | .OptionStatement i decl => .OptionStatement i decl :: decl.subnodes
  | .ExpressionStatement i e => .ExpressionStatement i e :: e.subnodes
  | .ReturnStatement i arg => .ReturnStatement i arg :: arg.subnodes
  | .NativeVariableDeclaration i id init =>
    .NativeVariableDeclaration i id init :: (id.subnodes ++ init.subnodes)
  | .ExternalVariableDeclaration i id => .ExternalVariableDeclaration i id :: id.subnodes
  | .FunctionExpression i defaults block =>
    .FunctionExpression i defaults block :: (defaults.subnodes ++ block.subnodes)
  | .FunctionDefaults i list => .FunctionDefaults i list :: subnodesList list
  | .FunctionParameterDefault i key value =>
    .FunctionParameterDefault i key value :: (key.subnodes ++ value.subnodes)
  | .FunctionBlock i params body => .FunctionBlock i params body :: (params.subnodes ++ body.subnodes)
  | .FunctionParameters i list => .FunctionParameters i list :: subnodesList list
  | .FunctionParameter i key => .FunctionParameter i key :: key.subnodes
  | .ArrayExpression i elements => .ArrayExpression i elements :: subnodesList elements
  | .BinaryExpression i left right =>
    .BinaryExpression i left right :: (left.subnodes ++ right.subnodes)
  | .CallExpression i callee args pipe =>
    .CallExpression i callee args pipe :: (callee.subnodes ++ (args.subnodes ++
      match pipe with
      | some p => p.subnodes
      | none => []))
  | .ConditionalExpression i test alternate consequent =>
    .ConditionalExpression i test alternate consequent ::
      (test.subnodes ++ (alternate.subnodes ++ consequent.subnodes))
  | .LogicalExpression i left right =>
    .LogicalExpression i left right :: (left.subnodes ++ right.subnodes)
  | .MemberExpression i object => .MemberExpression i object :: object.subnodes
  | .ObjectExpression i properties => .ObjectExpression i properties :: subnodesList properties
  | .UnaryExpression i arg => .UnaryExpression i arg :: arg.subnodes
  | .Property i key value => .Property i key value :: (key.subnodes ++ value.subnodes)
  | n => [n]
/-- Pre-order listing of a list of trees. -/
def subnodesList {α : Type} : List (Node α) → List (Node α)
  | [] => []
  | n :: ns => n.subnodes ++ subnodesList ns
end

/-- A tree in which every child field holds a non-nil node: no node of its
pre-order listing is nil. -/
def Node.noNil {α : Type} (n : Node α) : Bool :=
  n.subnodes.all fun m => !m.isNil

/-- Number of `Visit` calls in a trace. -/
def visits {α V : Type} : List (Event α V) → Nat
  | [] => 0
  | .visit _ _ :: t => visits t + 1
  | .done _ :: t => visits t

/-- Number of `Done` calls in a trace. -/
def dones {α V : Type} : List (Event α V) → Nat
  | [] => 0
  | .visit _ _ :: t => dones t
  | .done _ :: t => dones t + 1

/-- Properly nested traces: a sequence of blocks, each a `Visit` call on a
visitor, a properly nested trace, and the `Done` call on the same visitor. -/
inductive Nested {α V : Type} : List (Event α V) → Prop
  | nil : Nested []
  | block (v : V) (n : Node α) {inner rest : List (Event α V)} :
    Nested inner → Nested rest → Nested (Event.visit v n :: (inner ++ Event.done v :: rest))

/-- The calls made while the children of `n` are walked with the visitor that
`v.Visit(n)` returned from state `s`: none when it returned nil. -/
def childTrace {α V σ : Type} (vis : Visitor α V σ) (v : V) (n : Node α) (s : σ) :
    List (Event α V) :=
  match vis.Visit v n s with
  | (some w, s1) => (walkList vis w n.children (Run.mk s1 [])).trace
  | (none, _) => []

/-- The run after `walk` from a run `r` is the run from `r` with an empty trace,
with the calls already in `r` put in front. -/
def Framed {α V σ : Type} (vis : Visitor α V σ) (n : Node α) : Prop :=
  ∀ (v : V) (r : Run α V σ),
    walk vis v n r = Run.mk (walk vis v n (Run.mk r.state [])).state
      (r.trace ++ (walk vis v n (Run.mk r.state [])).trace)

/-- Example tree without nil children: the program `f(k: 1 + 2)`. -/
def exampleTree : Node String :=
  Node.Program "program"
    [ Node.ExpressionStatement "statement"
        (Node.CallExpression "call" (Node.IdentifierExpression "f")
          (Node.ObjectExpression "arguments"
            [ Node.Property "property" (Node.Identifier "k")
                (Node.BinaryExpression "+" (Node.IntegerLiteral "1") (Node.IntegerLiteral "2")) ])
          none) ]

/-- Example visitor: visitors are numbered, the state counts the calls;
`Visit` returns nil on a binary expression and the next visitor otherwise. -/
def exampleVisitor : Visitor String Nat Nat :=
  Visitor.mk
    (fun v n s =>
      match n with
      | Node.BinaryExpression _ _ _ => (none, s + 1)
      | _ => (some (v + 1), s + 1))
    (fun _ s => s + 1)

/-- The nodes on which a trace calls `Visit`, in order. -/
def visitedNodes {α V : Type} : List (Event α V) → List (Node α)
  | [] => []
  | .visit _ n :: t => n :: visitedNodes t
  | .done _ :: t => visitedNodes t

/-- Example visitor whose `Visit` always returns the visitor itself; the state
counts the calls. -/
def selfVisitor : Visitor String Nat Nat :=
  Visitor.mk (fun v _ s => (some v, s + 1)) (fun _ s => s + 1)

/-- Example tree with a conditional and a call with a pipe argument:
`if t then c else p |> f()`. -/
def exampleConditional : Node String :=
  Node.ExpressionStatement "statement"
    (Node.ConditionalExpression "if" (Node.IdentifierExpression "t")
      (Node.CallExpression "call" (Node.IdentifierExpression "f")
        (Node.ObjectExpression "arguments" []) (some (Node.IdentifierExpression "p")))
      (Node.IntegerLiteral "c"))

/-- Example function expression: `(a=1) => a`. -/
def exampleFunction : Node String :=
  Node.FunctionExpression "function"
    (Node.FunctionDefaults "defaults"
      [Node.FunctionParameterDefault "default" (Node.Identifier "a") (Node.IntegerLiteral "1")])
    (Node.FunctionBlock "block"
      (Node.FunctionParameters "parameters" [Node.FunctionParameter "parameter" (Node.Identifier "a")])
      (Node.IdentifierExpression "a"))

/-- Example return statement whose `Argument` is the nil interface value. -/
def exampleReturn : Node String :=
  Node.ReturnStatement "return" Node.nilInterface

end semantic

namespace Universe

/-! ## Builtin conversions (`stdlib/universe/typeconv.go`) -/

/-- The natures (`semantic.Nature`) that `typeconv.go` names, and `Invalid`. -/
inductive Nature where
  | Invalid | String | Bytes | Int | UInt | Float | Bool | Time | Duration
  | Regexp | Array | Object | Function | Dictionary
deriving DecidableEq, Repr

/-- A `semantic.MonoType` as the conversions use it: its nature, and `detail`
for the rest of the type (element and member types), which only printing
reads.  The type is declared in `semantic`, not among the sources. -/
structure MonoType where
  nature : Nature
  detail : String
deriving DecidableEq, Repr

/-- The error codes (`codes`) that `typeconv.go` uses. -/
inductive Code where
  | Invalid
deriving DecidableEq, Repr

/-- An argument of an error format. -/
inductive FmtArg (F : Type) where
  | str (s : String)
  | int (i : Int)
  | uint (n : Nat)
  | float (f : F)
  | type (t : MonoType)
deriving DecidableEq, Repr

/-- An error: one built by `errors.Newf(code, format, args...)`, kept as the
call (the message is the format applied to the arguments), or one returned by a
parsing function of another package. -/
inductive Error (F : Type) where
  | Newf (code : Code) (format : String) (args : List (FmtArg F))
  | external (msg : String)
deriving DecidableEq, Repr

/-- The value a method panics with: `values.UnexpectedKind(got, exp)`. -/
inductive Panic where
  | UnexpectedKind (got exp : Nature)
deriving DecidableEq, Repr

/-- A `values.Value` as an argument of a conversion, by kind.  `F` is the type
of 64-bit floats and `D` the type `values.Duration`, both declared outside the
sources.  Integers are `int64` and `uint64` values; times are nanoseconds. -/
inductive Value (F D : Type) where
  | null (t : MonoType)
  | string (s : String)
  | int (i : Int)
  | uint (u : Nat)
  | float (f : F)
  | bool (b : Bool)
  | time (t : Int)
  | duration (d : D)
  | bytes (b : List UInt8)
  | regexp
  | array (detail : String)
  | object (detail : String)
  | function (detail : String)
  | dictionary (detail : String)
deriving DecidableEq, Repr

/-- The method `IsNull` of an argument. -/
def Value.IsNull {F D : Type} : Value F D → Bool
  | .null _ => true
  | _ => false

/-- The method `Type` of an argument. -/
def Value.Type {F D : Type} : Value F D → MonoType
  | .null t => t
  | .string _ => MonoType.mk Nature.String ""
  | .int _ => MonoType.mk Nature.Int ""
  | .uint _ => MonoType.mk Nature.UInt ""
  | .float _ => MonoType.mk Nature.Float ""
  | .bool _ => MonoType.mk Nature.Bool ""
  | .time _ => MonoType.mk Nature.Time ""
  | .duration _ => MonoType.mk Nature.Duration ""
  | .bytes _ => MonoType.mk Nature.Bytes ""
  | .regexp => MonoType.mk Nature.Regexp ""
  | .array d => MonoType.mk Nature.Array d
  | .object d => MonoType.mk Nature.Object d
  | .function d => MonoType.mk Nature.Function d
  | .dictionary d => MonoType.mk Nature.Dictionary d

/-- The value `values.Null`. -/
def Null {F D : Type} : Value F D := Value.null (MonoType.mk Nature.Invalid "")

/-- Outcome of a `Call`: `(value, nil)`, `(nil, err)`, or a panic. -/
inductive Result (F D : Type) where
  | ok (v : Value F D)
  | err (e : Error F)
  | panic (p : Panic)
deriving DecidableEq, Repr

/-- The accessor `v.Str()` followed by `k`: a value of another kind panics. -/
def Value.withStr {F D : Type} (v : Value F D) (k : String → Result F D) : Result F D :=
  match v with
  | .string s => k s
  | _ => Result.panic (Panic.UnexpectedKind v.Type.nature Nature.String)

/-- The accessor `v.Int()` followed by `k`. -/
def Value.withInt {F D : Type} (v : Value F D) (k : Int → Result F D) : Result F D :=
  match v with
  | .int i => k i
  | _ => Result.panic (Panic.UnexpectedKind v.Type.nature Nature.Int)

/-- The accessor `v.UInt()` followed by `k`. -/
def Value.withUInt {F D : Type} (v : Value F D) (k : Nat → Result F D) : Result F D :=
  match v with
  | .uint u => k u
  | _ => Result.panic (Panic.UnexpectedKind v.Type.nature Nature.UInt)

/-- The accessor `v.Float()` followed by `k`. -/
def Value.withFloat {F D : Type} (v : Value F D) (k : F → Result F D) : Result F D :=
  match v with
  | .float f => k f
  | _ => Result.panic (Panic.UnexpectedKind v.Type.nature Nature.Float)

/-- The accessor `v.Bool()` followed by `k`. -/
def Value.withBool {F D : Type} (v : Value F D) (k : Bool → Result F D) : Result F D :=
  match v with
  | .bool b => k b
  | _ => Result.panic (Panic.UnexpectedKind v.Type.nature Nature.Bool)

/-- The accessor `v.Time()` followed by `k`. -/
def Value.withTime {F D : Type} (v : Value F D) (k : Int → Result F D) : Result F D :=
  match v with
  | .time t => k t
  | _ => Result.panic (Panic.UnexpectedKind v.Type.nature Nature.Time)

/-- The accessor `v.Duration()` followed by `k`. -/
def Value.withDuration {F D : Type} (v : Value F D) (k : D → Result F D) : Result F D :=
  match v with
  | .duration d => k d
  | _ => Result.panic (Panic.UnexpectedKind v.Type.nature Nature.Duration)

/-- The accessor `v.Bytes()` followed by `k`. -/
def Value.withBytes {F D : Type} (v : Value F D) (k : List UInt8 → Result F D) : Result F D :=
  match v with
  | .bytes b => k b
  | _ => Result.panic (Panic.UnexpectedKind v.Type.nature Nature.Bytes)

/-- An argument object (`values.Object`): named values. -/
abbrev Object (F D : Type) := List (String × Value F D)

/-- The method `args.Get(name)`: the value and `ok`, here `none` for not ok. -/
def Object.Get {F D : Type} : Object F D → String → Option (Value F D)
  | [], _ => none
  | (k, v) :: rest, name => if k = name then some v else Object.Get rest name

/-- The functions of other packages that the conversions call (`strconv`,
`parser`, `values`, float conversions), none of them among the sources. -/
structure Lib (F D : Type) where
  FormatInt : Int → String
  FormatUint : Nat → String
  FormatFloat : F → String
  FormatBool : Bool → String
  TimeString : Int → String
  DurationString : D → String
  DecodeRune : List UInt8 → Char × ℕ+
  ParseInt : String → Except String Int
  ParseUint : String → Except String Nat
  ParseFloat : String → Except String F
  ParseTime : String → Except String Int
  ParseDuration : String → Except String D
  floatToInt64 : F → Int
  floatToUint64 : F → Nat
  intToFloat : Int → F
  uintToFloat : Nat → F
  floatIs : F → Nat → Bool
  DurationNsecs : D → Int
  ConvertDurationNsecs : Int → D

/-- The conversion `int64(u)` of a `uint64`: the same 64 bits, signed. -/
def toInt64 (n : Int) : Int := (n + 2 ^ 63) % 2 ^ 64 - 2 ^ 63

/-- The conversion `uint64(i)` of an `int64`: the same 64 bits, unsigned. -/
def toUint64 (n : Int) : Nat := (n % 2 ^ 64).toNat

/-- The constant `conversionArg`. -/
def conversionArg : String := "v"

/-- The variable `errMissingArg`. -/
def errMissingArg {F : Type} : Error F :=
  Error.Newf Code.Invalid "missing argument %q" [FmtArg.str conversionArg]

/-- The constant `utf8.RuneError`. -/
def RuneError : Char := Char.ofNat 0xFFFD

/-- The loop of the `Bytes` case of `stringConv.Call`, on the bytes left and the
string built so far.  Each turn consumes at least one byte, so `fuel` turns, with
`fuel` the number of bytes, always reach the end of the input. -/
def decodeLoop {F D : Type} (lib : Lib F D) : Nat → List UInt8 → String → Result F D
  | 0, _, sb => Result.ok (Value.string sb)
  | fuel + 1, vB, sb =>
    if vB.length > 0 then
      if (lib.DecodeRune vB).1 = RuneError ∧ ((lib.DecodeRune vB).2 : Nat) = 1 then
        Result.err (Error.Newf Code.Invalid "invalid utf8 response" [])
      else
        decodeLoop lib fuel (vB.drop (lib.DecodeRune vB).2) (sb.push (lib.DecodeRune vB).1)
    else
      Result.ok (Value.string sb)

/-- The method `stringConv.Call`. -/
def stringConv.Call {F D : Type} (lib : Lib F D) (args : Object F D) : Result F D :=
  match args.Get conversionArg with
  | none => Result.err errMissingArg
  | some v =>
    if v.IsNull then Result.ok Null
    else
      match v.Type.nature with
      | .String => v.withStr fun s => Result.ok (Value.string s)
      | .Int => v.withInt fun i => Result.ok (Value.string (lib.FormatInt i))
      | .UInt => v.withUInt fun u => Result.ok (Value.string (lib.FormatUint u))
      | .Float => v.withFloat fun f => Result.ok (Value.string (lib.FormatFloat f))
      | .Bool => v.withBool fun b => Result.ok (Value.string (lib.FormatBool b))
      | .Time => v.withTime fun t => Result.ok (Value.string (lib.TimeString t))
      | .Duration => v.withDuration fun d => Result.ok (Value.string (lib.DurationString d))
      | .Bytes => v.withBytes fun vB => decodeLoop lib vB.length vB ""
      | _ => Result.err (Error.Newf Code.Invalid "cannot convert %v to string" [FmtArg.type v.Type])

/-- The method `intConv.Call`. -/
def intConv.Call {F D : Type} (lib : Lib F D) (args : Object F D) : Result F D :=
  match args.Get conversionArg with
  | none => Result.err errMissingArg
  | some v =>
    if v.IsNull then Result.ok Null
    else
      match v.Type.nature with
      | .String => v.withStr fun s =>
        match lib.ParseInt s with
        | .error e => Result.err (Error.external e)
        | .ok n => Result.ok (Value.int n)
      | .Int => v.withInt fun i => Result.ok (Value.int i)
      | .UInt => v.withUInt fun u => Result.ok (Value.int (toInt64 u))
      | .Float => v.withFloat fun f => Result.ok (Value.int (lib.floatToInt64 f))
      | .Bool => v.withBool fun b => Result.ok (Value.int (if b then 1 else 0))
      | .Time => v.withTime fun t => Result.ok (Value.int t)
      | .Duration => v.withDuration fun d => Result.ok (Value.int (lib.DurationNsecs d))
      | _ => Result.err (Error.Newf Code.Invalid "cannot convert %v to int" [FmtArg.type v.Type])

/-- The method `uintConv.Call`. -/
def uintConv.Call {F D : Type} (lib : Lib F D) (args : Object F D) : Result F D :=
  match args.Get conversionArg with
  | none => Result.err errMissingArg
  | some v =>
    if v.IsNull then Result.ok Null
    else
      match v.Type.nature with
      | .String => v.withStr fun s =>
        match lib.ParseUint s with
        | .error e => Result.err (Error.external e)
        | .ok n => Result.ok (Value.uint n)
      | .Int => v.withInt fun i => Result.ok (Value.uint (toUint64 i))
      | .UInt => v.withUInt fun u => Result.ok (Value.uint u)
      | .Float => v.withFloat fun f => Result.ok (Value.uint (lib.floatToUint64 f))
      | .Bool => v.withBool fun b => Result.ok (Value.uint (if b then 1 else 0))
      | .Time => v.withTime fun t => Result.ok (Value.uint (toUint64 t))
      | .Duration => v.withDuration fun d =>
        Result.ok (Value.uint (toUint64 (lib.DurationNsecs d)))
      | _ => Result.err (Error.Newf Code.Invalid "cannot convert %v to uint" [FmtArg.type v.Type])

/-- The method `floatConv.Call`. -/
def floatConv.Call {F D : Type} (lib : Lib F D) (args : Object F D) : Result F D :=
  match args.Get conversionArg with
  | none => Result.err errMissingArg
  | some v =>
    if v.IsNull then Result.ok Null
    else
      match v.Type.nature with
      | .String => v.withStr fun s =>
        match lib.ParseFloat s with
        | .error e => Result.err (Error.external e)
        | .ok n => Result.ok (Value.float n)
      | .Int => v.withInt fun i => Result.ok (Value.float (lib.intToFloat i))
      | .UInt => v.withUInt fun u => Result.ok (Value.float (lib.uintToFloat u))
      | .Float => v.withFloat fun f => Result.ok (Value.float f)
      | .Bool => v.withBool fun b =>
        Result.ok (Value.float (if b then lib.intToFloat 1 else lib.intToFloat 0))
      | _ => Result.err (Error.Newf Code.Invalid "cannot convert %v to float" [FmtArg.type v.Type])

/-- The method `boolConv.Call`. -/
def boolConv.Call {F D : Type} (lib : Lib F D) (args : Object F D) : Result F D :=
  match args.Get conversionArg with
  | none => Result.err errMissingArg
  | some v =>
    if v.IsNull then Result.ok Null
    else
      match v.Type.nature with
      | .String => v.withStr fun s =>
        if s = "true" then Result.ok (Value.bool true)
        else if s = "false" then Result.ok (Value.bool false)
        else Result.err (Error.Newf Code.Invalid "cannot convert string %q to bool" [FmtArg.str s])
      | .Int => v.withInt fun n =>
        if n = 0 then Result.ok (Value.bool false)
        else if n = 1 then Result.ok (Value.bool true)
        else Result.err (Error.Newf Code.Invalid
          "cannot convert int %d to bool, must be 0 or 1" [FmtArg.int n])
      | .UInt => v.withUInt fun n =>
        if n = 0 then Result.ok (Value.bool false)
        else if n = 1 then Result.ok (Value.bool true)
        else Result.err (Error.Newf Code.Invalid
          "cannot convert uint %d to bool, must be 0 or 1" [FmtArg.uint n])
      | .Float => v.withFloat fun n =>
        if lib.floatIs n 0 then Result.ok (Value.bool false)
        else if lib.floatIs n 1 then Result.ok (Value.bool true)
        else Result.err (Error.Newf Code.Invalid
          "cannot convert float %f to bool, must be 0 or 1" [FmtArg.float n])
      | .Bool => v.withBool fun b => Result.ok (Value.bool b)
      | _ => Result.err (Error.Newf Code.Invalid "cannot convert %v to bool" [FmtArg.type v.Type])

/-- The method `timeConv.Call`. -/
def timeConv.Call {F D : Type} (lib : Lib F D) (args : Object F D) : Result F D :=
  match args.Get conversionArg with
  | none => Result.err errMissingArg
  | some v =>
    if v.IsNull then Result.ok Null
    else
      match v.Type.nature with
      | .String => v.withStr fun s =>
        match lib.ParseTime s with
        | .error e => Result.err (Error.external e)
        | .ok ts => Result.ok (Value.time ts)
      | .Int => v.withInt fun i => Result.ok (Value.time i)
      | .UInt => v.withUInt fun u => Result.ok (Value.time (toInt64 u))
      | .Time => v.withTime fun t => Result.ok (Value.time t)
      | _ => Result.err (Error.Newf Code.Invalid "cannot convert %v to time" [FmtArg.type v.Type])

/-- The method `durationConv.Call`. -/
def durationConv.Call {F D : Type} (lib : Lib F D) (args : Object F D) : Result F D :=
  match args.Get conversionArg with
  | none => Result.err errMissingArg
  | some v =>
    if v.IsNull then Result.ok Null
    else
      match v.Type.nature with
      | .String => v.withStr fun s =>
        match lib.ParseDuration s with
        | .error e => Result.err (Error.external e)
        | .ok n => Result.ok (Value.duration n)
      | .Int => v.withInt fun i => Result.ok (Value.duration (lib.ConvertDurationNsecs i))
      | .UInt => v.withUInt fun u =>
        Result.ok (Value.duration (lib.ConvertDurationNsecs (toInt64 u)))
      | .Duration => v.withDuration fun d => Result.ok (Value.duration d)
      | _ => Result.err (Error.Newf Code.Invalid "cannot convert %v to duration"
          [FmtArg.type v.Type])

/-- The function of the value `bytes`. -/
def bytes.Call {F D : Type} (args : Object F D) : Result F D :=
  match args.Get conversionArg with
  | none => Result.err errMissingArg
  | some v =>
    match v.Type.nature with
    | .String => v.withStr fun s => Result.ok (Value.bytes s.toUTF8.data.toList)
    | _ => Result.err (Error.Newf Code.Invalid "cannot convert %v to bytes" [FmtArg.type v.Type])

/-- The builtin conversion objects of `typeconv.go` that are values with their
own methods (`bytes` is built by `values.NewFunction`). -/
inductive Conv where
  | stringConv | intConv | uintConv | floatConv | boolConv | timeConv | durationConv
deriving DecidableEq, Repr

/-- The methods `IsNull`. -/
def Conv.IsNull : Conv → Bool
  | .stringConv => false
  | .intConv => false
  | .uintConv => false
  | .floatConv => false
  | .boolConv => false
  | .timeConv => false
  | .durationConv => false

/-- The methods `HasSideEffect`. -/
def Conv.HasSideEffect : Conv → Bool
  | .stringConv => false
  | .intConv => false
  | .uintConv => false
  | .floatConv => false
  | .boolConv => false
  | .timeConv => false
  | .durationConv => false

/-- The methods `Call` of the conversion objects. -/
def Conv.Call {F D : Type} (lib : Lib F D) : Conv → Object F D → Result F D
  | .stringConv => stringConv.Call lib
  | .intConv => intConv.Call lib
  | .uintConv => uintConv.Call lib
  | .floatConv => floatConv.Call lib
  | .boolConv => boolConv.Call lib
  | .timeConv => timeConv.Call lib
  | .durationConv => durationConv.Call lib

/-- The methods `Time`: each panics with `values.UnexpectedKind(semantic.Float, semantic.Time)`. -/
def Conv.Time : Conv → Except Panic Int
  | .stringConv => Except.error (Panic.UnexpectedKind Nature.Float Nature.Time)
  | .intConv => Except.error (Panic.UnexpectedKind Nature.Float Nature.Time)
  | .uintConv => Except.error (Panic.UnexpectedKind Nature.Float Nature.Time)
  | .floatConv => Except.error (Panic.UnexpectedKind Nature.Float Nature.Time)
  | .boolConv => Except.error (Panic.UnexpectedKind Nature.Float Nature.Time)
  | .timeConv => Except.error (Panic.UnexpectedKind Nature.Float Nature.Time)
  | .durationConv => Except.error (Panic.UnexpectedKind Nature.Float Nature.Time)

/-- The methods `Str`: each panics with `values.UnexpectedKind(semantic.Function, semantic.String)`. -/
def Conv.Str : Conv → Except Panic String
  | .stringConv => Except.error (Panic.UnexpectedKind Nature.Function Nature.String)
  | .intConv => Except.error (Panic.UnexpectedKind Nature.Function Nature.String)
  | .uintConv => Except.error (Panic.UnexpectedKind Nature.Function Nature.String)
  | .floatConv => Except.error (Panic.UnexpectedKind Nature.Function Nature.String)
  | .boolConv => Except.error (Panic.UnexpectedKind Nature.Function Nature.String)
  | .timeConv => Except.error (Panic.UnexpectedKind Nature.Function Nature.String)
  | .durationConv => Except.error (Panic.UnexpectedKind Nature.Function Nature.String)

/-- The methods `Bytes`: each panics with `values.UnexpectedKind(semantic.Function, semantic.Bytes)`. -/
def Conv.Bytes : Conv → Except Panic (List UInt8)
  | .stringConv => Except.error (Panic.UnexpectedKind Nature.Function Nature.Bytes)
  | .intConv => Except.error (Panic.UnexpectedKind Nature.Function Nature.Bytes)
  | .uintConv => Except.error (Panic.UnexpectedKind Nature.Function Nature.Bytes)
  | .floatConv => Except.error (Panic.UnexpectedKind Nature.Function Nature.Bytes)
  | .boolConv => Except.error (Panic.UnexpectedKind Nature.Function Nature.Bytes)
  | .timeConv => Except.error (Panic.UnexpectedKind Nature.Function Nature.Bytes)
  | .durationConv => Except.error (Panic.UnexpectedKind Nature.Function Nature.Bytes)

/-- The methods `Int`: each panics with `values.UnexpectedKind(semantic.Function, semantic.Int)`. -/
def Conv.Int : Conv → Except Panic Int
  | .stringConv => Except.error (Panic.UnexpectedKind Nature.Function Nature.Int)
  | .intConv => Except.error (Panic.UnexpectedKind Nature.Function Nature.Int)
  | .uintConv => Except.error (Panic.UnexpectedKind Nature.Function Nature.Int)
  | .floatConv => Except.error (Panic.UnexpectedKind Nature.Function Nature.Int)
  | .boolConv => Except.error (Panic.UnexpectedKind Nature.Function Nature.Int)
  | .timeConv => Except.error (Panic.UnexpectedKind Nature.Function Nature.Int)
  | .durationConv => Except.error (Panic.UnexpectedKind Nature.Function Nature.Int)

/-- The methods `UInt`: each panics with `values.UnexpectedKind(semantic.Function, semantic.UInt)`. -/
def Conv.UInt : Conv → Except Panic Nat
  | .stringConv => Except.error (Panic.UnexpectedKind Nature.Function Nature.UInt)
  | .intConv => Except.error (Panic.UnexpectedKind Nature.Function Nature.UInt)
  | .uintConv => Except.error (Panic.UnexpectedKind Nature.Function Nature.UInt)
  | .floatConv => Except.error (Panic.UnexpectedKind Nature.Function Nature.UInt)
  | .boolConv => Except.error (Panic.UnexpectedKind Nature.Function Nature.UInt)
  | .timeConv => Except.error (Panic.UnexpectedKind Nature.Function Nature.UInt)
  | .durationConv => Except.error (Panic.UnexpectedKind Nature.Function Nature.UInt)

/-- The methods `Float`: each panics with `values.UnexpectedKind(semantic.Function, semantic.Float)`.  The result type is declared outside the
sources. -/
def Conv.Float {F : Type} : Conv → Except Panic F
  | .stringConv => Except.error (Panic.UnexpectedKind Nature.Function Nature.Float)
  | .intConv => Except.error (Panic.UnexpectedKind Nature.Function Nature.Float)
  | .uintConv => Except.error (Panic.UnexpectedKind Nature.Function Nature.Float)
  | .floatConv => Except.error (Panic.UnexpectedKind Nature.Function Nature.Float)
  | .boolConv => Except.error (Panic.UnexpectedKind Nature.Function Nature.Float)
  | .timeConv => Except.error (Panic.UnexpectedKind Nature.Function Nature.Float)
  | .durationConv => Except.error (Panic.UnexpectedKind Nature.Function Nature.Float)

/-- The methods `Bool`: each panics with `values.UnexpectedKind(semantic.Function, semantic.Bool)`. -/
def Conv.Bool : Conv → Except Panic Bool
  | .stringConv => Except.error (Panic.UnexpectedKind Nature.Function Nature.Bool)
  | .intConv => Except.error (Panic.UnexpectedKind Nature.Function Nature.Bool)
  | .uintConv => Except.error (Panic.UnexpectedKind Nature.Function Nature.Bool)
  | .floatConv => Except.error (Panic.UnexpectedKind Nature.Function Nature.Bool)
  | .boolConv => Except.error (Panic.UnexpectedKind Nature.Function Nature.Bool)
  | .timeConv => Except.error (Panic.UnexpectedKind Nature.Function Nature.Bool)
  | .durationConv => Except.error (Panic.UnexpectedKind Nature.Function Nature.Bool)

/-- The methods `Duration`: each panics with `values.UnexpectedKind(semantic.Float, semantic.Duration)`.  The result type is declared outside the
sources. -/
def Conv.Duration {D : Type} : Conv → Except Panic D
  | .stringConv => Except.error (Panic.UnexpectedKind Nature.Float Nature.Duration)
  | .intConv => Except.error (Panic.UnexpectedKind Nature.Float Nature.Duration)
  | .uintConv => Except.error (Panic.UnexpectedKind Nature.Float Nature.Duration)
  | .floatConv => Except.error (Panic.UnexpectedKind Nature.Float Nature.Duration)
  | .boolConv => Except.error (Panic.UnexpectedKind Nature.Float Nature.Duration)
  | .timeConv => Except.error (Panic.UnexpectedKind Nature.Float Nature.Duration)
  | .durationConv => Except.error (Panic.UnexpectedKind Nature.Float Nature.Duration)

/-- The methods `Regexp`: each panics with `values.UnexpectedKind(semantic.Float, semantic.Regexp)`.  The result type is declared outside the
sources. -/
def Conv.Regexp {T : Type} : Conv → Except Panic T
  | .stringConv => Except.error (Panic.UnexpectedKind Nature.Float Nature.Regexp)
  | .intConv => Except.error (Panic.UnexpectedKind Nature.Float Nature.Regexp)
  | .uintConv => Except.error (Panic.UnexpectedKind Nature.Float Nature.Regexp)
  | .floatConv => Except.error (Panic.UnexpectedKind Nature.Float Nature.Regexp)
  | .boolConv => Except.error (Panic.UnexpectedKind Nature.Float Nature.Regexp)
  | .timeConv => Except.error (Panic.UnexpectedKind Nature.Float Nature.Regexp)
  | .durationConv => Except.error (Panic.UnexpectedKind Nature.Float Nature.Regexp)

/-- The methods `Array`: each panics with `values.UnexpectedKind(semantic.Float, semantic.Array)`.  The result type is declared outside the
sources. -/
def Conv.Array {T : Type} : Conv → Except Panic T
  | .stringConv => Except.error (Panic.UnexpectedKind Nature.Float Nature.Array)
  | .intConv => Except.error (Panic.UnexpectedKind Nature.Float Nature.Array)
  | .uintConv => Except.error (Panic.UnexpectedKind Nature.Float Nature.Array)
  | .floatConv => Except.error (Panic.UnexpectedKind Nature.Float Nature.Array)
  | .boolConv => Except.error (Panic.UnexpectedKind Nature.Float Nature.Array)
  | .timeConv => Except.error (Panic.UnexpectedKind Nature.Float Nature.Array)
  | .durationConv => Except.error (Panic.UnexpectedKind Nature.Float Nature.Array)

/-- The methods `Object`: each panics with `values.UnexpectedKind(semantic.Float, semantic.Object)`.  The result type is declared outside the
sources. -/
def Conv.Object {T : Type} : Conv → Except Panic T
  | .stringConv => Except.error (Panic.UnexpectedKind Nature.Float Nature.Object)
  | .intConv => Except.error (Panic.UnexpectedKind Nature.Float Nature.Object)
  | .uintConv => Except.error (Panic.UnexpectedKind Nature.Float Nature.Object)
  | .floatConv => Except.error (Panic.UnexpectedKind Nature.Float Nature.Object)
  | .boolConv => Except.error (Panic.UnexpectedKind Nature.Float Nature.Object)
  | .timeConv => Except.error (Panic.UnexpectedKind Nature.Float Nature.Object)
  | .durationConv => Except.error (Panic.UnexpectedKind Nature.Float Nature.Object)

/-- The methods `Function`: each returns its receiver. -/
def Conv.Function : Conv → Except Panic Conv
  | .stringConv => Except.ok Conv.stringConv
  | .intConv => Except.ok Conv.intConv
  | .uintConv => Except.ok Conv.uintConv
  | .floatConv => Except.ok Conv.floatConv
  | .boolConv => Except.ok Conv.boolConv
  | .timeConv => Except.ok Conv.timeConv
  | .durationConv => Except.ok Conv.durationConv

/-- The methods `Dict`: each panics with `values.UnexpectedKind(semantic.Float, semantic.Dictionary)`.  The result type is declared outside the
sources. -/
def Conv.Dict {T : Type} : Conv → Except Panic T
  | .stringConv => Except.error (Panic.UnexpectedKind Nature.Float Nature.Dictionary)
  | .intConv => Except.error (Panic.UnexpectedKind Nature.Float Nature.Dictionary)
  | .uintConv => Except.error (Panic.UnexpectedKind Nature.Float Nature.Dictionary)
  | .floatConv => Except.error (Panic.UnexpectedKind Nature.Float Nature.Dictionary)
  | .boolConv => Except.error (Panic.UnexpectedKind Nature.Float Nature.Dictionary)
  | .timeConv => Except.error (Panic.UnexpectedKind Nature.Float Nature.Dictionary)
  | .durationConv => Except.error (Panic.UnexpectedKind Nature.Float Nature.Dictionary)

/-- The eight conversion functions registered by `init`, by name. -/
inductive ConvFn where
  | string | int | uint | float | bool | time | duration | bytes
deriving DecidableEq, Repr

/-- The function registered under each name. -/
def ConvFn.Call {F D : Type} (lib : Lib F D) : ConvFn → Object F D → Result F D
  | .string => stringConv.Call lib
  | .int => intConv.Call lib
  | .uint => uintConv.Call lib
  | .float => floatConv.Call lib
  | .bool => boolConv.Call lib
  | .time => timeConv.Call lib
  | .duration => durationConv.Call lib
  | .bytes => bytes.Call

/-- The format of the error of each function for a kind it does not convert
(the `default` case of its switch). -/
def ConvFn.cannotConvert : ConvFn → String
  | .string => "cannot convert %v to string"
  | .int => "cannot convert %v to int"
  | .uint => "cannot convert %v to uint"
  | .float => "cannot convert %v to float"
  | .bool => "cannot convert %v to bool"
  | .time => "cannot convert %v to time"
  | .duration => "cannot convert %v to duration"
  | .bytes => "cannot convert %v to bytes"

/-- The supported kinds of each conversion, as the claim lists them. -/
def ConvFn.claimedSupported : ConvFn → List Nature
  | .string => [Nature.String, Nature.Int, Nature.UInt, Nature.Float, Nature.Bool, Nature.Time,
      Nature.Duration, Nature.Bytes]
  | .int => [Nature.String, Nature.Int, Nature.UInt, Nature.Float, Nature.Bool, Nature.Time,
      Nature.Duration]
  | .uint => [Nature.String, Nature.Int, Nature.UInt, Nature.Float, Nature.Bool, Nature.Time,
      Nature.Duration]
  | .float => [Nature.String, Nature.Int, Nature.UInt, Nature.Float, Nature.Bool]
  | .bool => [Nature.String, Nature.Int, Nature.UInt, Nature.Float, Nature.Bool]
  | .time => [Nature.String, Nature.Int, Nature.UInt, Nature.Time]
  | .duration => [Nature.String, Nature.Int, Nature.UInt, Nature.Duration]
  | .bytes => [Nature.String]

/-- Whether an outcome is an error or a panic. -/
def Result.fails {F D : Type} : Result F D → Bool
  | .ok _ => false
  | _ => true

/-- A stand-in for the functions of other packages, for examples: floats and
durations are integers, bytes are decoded one by one. -/
def sampleLib : Lib Int Int where
  FormatInt := fun i => toString i
  FormatUint := fun n => toString n
  FormatFloat := fun f => toString f
  FormatBool := fun b => if b then "true" else "false"
  TimeString := fun t => toString t
  DurationString := fun d => toString d
  DecodeRune := fun b => (Char.ofNat (b.headD 0).toNat, 1)
  ParseInt := fun s =>
    match s.toInt? with
    | some n => Except.ok n
    | none => Except.error "invalid syntax"
  ParseUint := fun s =>
    match s.toNat? with
    | some n => Except.ok n
    | none => Except.error "invalid syntax"
  ParseFloat := fun s =>
    match s.toInt? with
    | some n => Except.ok n
    | none => Except.error "invalid syntax"
  ParseTime := fun s =>
    match s.toInt? with
    | some n => Except.ok n
    | none => Except.error "invalid syntax"
  ParseDuration := fun s =>
    match s.toInt? with
    | some n => Except.ok n
    | none => Except.error "invalid syntax"
  floatToInt64 := fun f => f
  floatToUint64 := fun f => f.toNat
  intToFloat := fun i => i
  uintToFloat := fun n => n
  floatIs := fun f n => f == n
  DurationNsecs := fun d => d
  ConvertDurationNsecs := fun i => i

end Universe

/-! # Theorems: profilers -/

namespace execute

theorem lookupIn_reportInto (l : List (String × OperationStatistic)) (L K : String) (d : Int) :
    lookupIn (reportInto l L d) K =
      if L = K then combine (lookupIn l L) d else lookupIn l K := by
  induction l with
  | nil =>
    by_cases h : L = K <;> simp [reportInto, lookupIn, combine, h]
  | cons e rest ih =>
    obtain ⟨k, s⟩ := e
    by_cases hk : k = L
    · subst hk
      by_cases h : k = K <;> simp [reportInto, lookupIn, combine, h]
    · by_cases h : L = K
      · subst h
        simp [reportInto, lookupIn, hk, ih]
      · by_cases hK : k = K
        · subst hK
          simp [reportInto, lookupIn, hk, h]
        · simp [reportInto, lookupIn, hk, h, hK, ih]

theorem lookup_report (p : OperatorProfiler) (L K : String) (d : Int) :
    (p.report L d).lookup K = if L = K then combine (p.lookup L) d else p.lookup K := by
  simp [OperatorProfiler.report, OperatorProfiler.lookup, lookupIn_reportInto]

/-- Durations reported under label `K` in a sequence of reports, in order. -/
theorem lookup_reportAll (rs : List (String × Int)) (p : OperatorProfiler) (K : String) :
    (p.reportAll rs).lookup K =
      ((rs.filter fun r => decide (r.1 = K)).map Prod.snd).foldl combine (p.lookup K) := by
  induction rs generalizing p with
  | nil => simp [OperatorProfiler.reportAll]
  | cons r rs ih =>
    have step : p.reportAll (r :: rs) = (p.report r.1 r.2).reportAll rs := by
      simp [OperatorProfiler.reportAll]
    rw [step, ih, lookup_report]
    by_cases h : r.1 = K
    · subst h
      simp
    · simp [h]

theorem combine_comm (o : Option OperationStatistic) (a b : Int) :
    combine (combine o a) b = combine (combine o b) a := by
  cases o <;>
    simp [combine, OperationStatistic.add, OperationStatistic.first, add_comm, add_left_comm,
      add_assoc, min_comm, max_comm, min_left_comm, max_left_comm, min_assoc, max_assoc]

theorem labels_reportInto (l : List (String × OperationStatistic)) (L : String) (d : Int) :
    (reportInto l L d).map Prod.fst =
      if L ∈ l.map Prod.fst then l.map Prod.fst else l.map Prod.fst ++ [L] := by
  induction l with
  | nil => simp [reportInto]
  | cons e rest ih =>
    obtain ⟨k, s⟩ := e
    by_cases hk : k = L
    · subst hk
      simp [reportInto]
    · have hk' : ¬ L = k := fun h => hk h.symm
      by_cases hm : L ∈ rest.map Prod.fst
      · simp only [reportInto, hk, if_false, List.map_cons, ih, hm, if_true]
        simp [hm]
      · simp only [reportInto, hk, if_false, List.map_cons, ih, hm]
        simp [hk', hm]

theorem labels_report (p : OperatorProfiler) (L : String) (d : Int) :
    (p.report L d).labels = if L ∈ p.labels then p.labels else p.labels ++ [L] := by
  simp only [OperatorProfiler.report, OperatorProfiler.labels, labels_reportInto]

theorem labels_reportAll (rs : List (String × Int)) (p : OperatorProfiler) :
    (p.labels.Nodup → (p.reportAll rs).labels.Nodup) ∧
      ∀ L, L ∈ (p.reportAll rs).labels ↔ L ∈ p.labels ∨ L ∈ rs.map Prod.fst := by
  induction rs generalizing p with
  | nil => simp [OperatorProfiler.reportAll]
  | cons r rs ih =>
    have step : p.reportAll (r :: rs) = (p.report r.1 r.2).reportAll rs := by
      simp [OperatorProfiler.reportAll]
    rw [step]
    obtain ⟨ih1, ih2⟩ := ih (p.report r.1 r.2)
    constructor
    · intro hp
      apply ih1
      rw [labels_report]
      by_cases hm : r.1 ∈ p.labels
      · simpa [hm] using hp
      · simp only [hm, if_false]
        exact List.Nodup.append hp (List.nodup_singleton _) (by simpa using hm)
    · intro L
      rw [ih2, labels_report]
      by_cases hm : r.1 ∈ p.labels
      · simp only [hm, if_true, List.map_cons, List.mem_cons]
        constructor
        · rintro (h | h)
          · exact Or.inl h
          · exact Or.inr (Or.inr h)
        · rintro (h | h | h)
          · exact Or.inl h
          · exact Or.inl (h ▸ hm)
          · exact Or.inr h
      · simp only [hm, if_false, List.mem_append, List.mem_singleton, List.map_cons,
          List.mem_cons]
        tauto

theorem reportAll_cons (p : OperatorProfiler) (r : String × Int) (rs : List (String × Int)) :
    p.reportAll (r :: rs) = (p.report r.1 r.2).reportAll rs := by
  simp [OperatorProfiler.reportAll]

theorem reportAll_single (L : String) (ds : List Int) (s0 : OperationStatistic) :
    (OperatorProfiler.mk [(L, s0)]).reportAll (ds.map fun d => (L, d)) =
      OperatorProfiler.mk [(L, ds.foldl OperationStatistic.add s0)] := by
  induction ds generalizing s0 with
  | nil => simp [OperatorProfiler.reportAll]
  | cons d ds ih =>
    rw [List.map_cons, reportAll_cons]
    have h1 : (OperatorProfiler.mk [(L, s0)]).report L d = OperatorProfiler.mk [(L, s0.add d)] := by
      simp [OperatorProfiler.report, reportInto]
    rw [h1, ih]
    simp

theorem foldl_add_spec (ds : List Int) (s0 : OperationStatistic) :
    (ds.foldl OperationStatistic.add s0).count = s0.count + ds.length ∧
    (ds.foldl OperationStatistic.add s0).sumDuration = s0.sumDuration + ds.sum ∧
    (ds.foldl OperationStatistic.add s0).minDuration ≤ s0.minDuration ∧
    (∀ d ∈ ds, (ds.foldl OperationStatistic.add s0).minDuration ≤ d) ∧
    ((ds.foldl OperationStatistic.add s0).minDuration = s0.minDuration ∨
      (ds.foldl OperationStatistic.add s0).minDuration ∈ ds) ∧
    s0.maxDuration ≤ (ds.foldl OperationStatistic.add s0).maxDuration ∧
    (∀ d ∈ ds, d ≤ (ds.foldl OperationStatistic.add s0).maxDuration) ∧
    ((ds.foldl OperationStatistic.add s0).maxDuration = s0.maxDuration ∨
      (ds.foldl OperationStatistic.add s0).maxDuration ∈ ds) := by
  induction ds generalizing s0 with
  | nil => simp
  | cons d ds ih =>
    obtain ⟨h1, h2, h3, h4, h5, h6, h7, h8⟩ := ih (s0.add d)
    simp only [List.foldl_cons, List.length_cons, List.sum_cons, List.mem_cons]
    have e1 : (s0.add d).count = s0.count + 1 := rfl
    have e2 : (s0.add d).sumDuration = s0.sumDuration + d := rfl
    have e3 : (s0.add d).minDuration = min s0.minDuration d := rfl
    have e4 : (s0.add d).maxDuration = max s0.maxDuration d := rfl
    rw [e1] at h1
    rw [e2] at h2
    rw [e3] at h3 h5
    rw [e4] at h6 h8
    refine ⟨?_, ?_, ?_, ?_, ?_, ?_, ?_, ?_⟩
    · rw [h1]; push_cast; ring
    · rw [h2]; ring
    · exact le_trans h3 (min_le_left _ _)
    · rintro x (rfl | hx)
      · exact le_trans h3 (min_le_right _ _)
      · exact h4 x hx
    · rcases h5 with h | h
      · rcases min_choice s0.minDuration d with hm | hm
        · left; rw [h, hm]
        · right; left; rw [h, hm]
      · right; right; exact h
    · exact le_trans (le_max_left _ _) h6
    · rintro x (rfl | hx)
      · exact le_trans (le_max_right _ _) h6
      · exact h7 x hx
    · rcases h8 with h | h
      · rcases max_choice s0.maxDuration d with hm | hm
        · left; rw [h, hm]
        · right; left; rw [h, hm]
      · right; right; exact h

/-- C1: for every non-empty sequence of durations reported under one label to
an empty operator profiler, the profiler keeps one statistic, for that label,
whose count is the number of reports, whose sum is the sum of the durations,
whose min and max are the least and greatest reported duration, and whose mean
is sum/count; `GetResult` renders exactly that one row. -/
theorem C1_single_label_statistic (L : String) (ds : List Int) (h : ds ≠ []) :
    ∃ s : OperationStatistic,
      (OperatorProfiler.empty.reportAll (ds.map fun d => (L, d))).stats = [(L, s)] ∧
      s.count = ds.length ∧ s.sumDuration = ds.sum ∧
      s.minDuration ∈ ds ∧ (∀ d ∈ ds, s.minDuration ≤ d) ∧
      s.maxDuration ∈ ds ∧ (∀ d ∈ ds, d ≤ s.maxDuration) ∧
      s.mean = (ds.sum : ℚ) / (ds.length : ℚ) ∧
      (OperatorProfiler.empty.reportAll (ds.map fun d => (L, d))).GetResult =
        Except.ok (Table.mk [("_measurement", Value.str "profiler/operator")] operatorColMeta
          [[Value.str "profiler/operator", Value.int ds.length, Value.int s.minDuration,
            Value.int s.maxDuration, Value.int ds.sum,
            Value.float ((ds.sum : ℚ) / (ds.length : ℚ))]]) := by
  cases ds with
  | nil => exact absurd rfl h
  | cons d ds =>
    have h0 : OperatorProfiler.empty.report L d =
        OperatorProfiler.mk [(L, OperationStatistic.first d)] := by
      simp [OperatorProfiler.report, OperatorProfiler.empty, reportInto]
    have hst : OperatorProfiler.empty.reportAll ((d :: ds).map fun d => (L, d)) =
        OperatorProfiler.mk [(L, ds.foldl OperationStatistic.add (OperationStatistic.first d))] := by
      rw [List.map_cons, reportAll_cons, h0, reportAll_single]
    obtain ⟨h1, h2, h3, h4, h5, h6, h7, h8⟩ := foldl_add_spec ds (OperationStatistic.first d)
    have e1 : (OperationStatistic.first d).count = 1 := rfl
    have e2 : (OperationStatistic.first d).sumDuration = d := rfl
    have e3 : (OperationStatistic.first d).minDuration = d := rfl
    have e4 : (OperationStatistic.first d).maxDuration = d := rfl
    rw [e1] at h1
    rw [e2] at h2
    rw [e3] at h3 h5
    rw [e4] at h6 h8
    have hc : (ds.foldl OperationStatistic.add (OperationStatistic.first d)).count =
        ((d :: ds).length : Int) := by
      rw [h1, List.length_cons]; push_cast; ring
    have hs : (ds.foldl OperationStatistic.add (OperationStatistic.first d)).sumDuration =
        (d :: ds).sum := by
      rw [h2, List.sum_cons]
    have hm : (ds.foldl OperationStatistic.add (OperationStatistic.first d)).mean =
        (((d :: ds).sum : Int) : ℚ) / (((d :: ds).length : Nat) : ℚ) := by
      simp only [OperationStatistic.mean, hc, hs]
      push_cast
      rfl
    refine ⟨ds.foldl OperationStatistic.add (OperationStatistic.first d), ?_, hc, hs, ?_, ?_, ?_,
      ?_, hm, ?_⟩
    · rw [hst]
    · rcases h5 with e | e
      · rw [e]; exact List.mem_cons_self _ _
      · exact List.mem_cons_of_mem _ e
    · intro x hx
      rcases List.mem_cons.1 hx with rfl | hx
      · exact h3
      · exact h4 x hx
    · rcases h8 with e | e
      · rw [e]; exact List.mem_cons_self _ _
      · exact List.mem_cons_of_mem _ e
    · intro x hx
      rcases List.mem_cons.1 hx with rfl | hx
      · exact h6
      · exact h7 x hx
    · rw [hst]
      simp only [OperatorProfiler.GetResult, operatorRow, operatorMeasurement, List.map_cons,
        List.map_nil, hc, hs, hm]

/-- Witness of C1, the test: durations 1334 and 1434 under `tf` give one
statistic with count 2, min 1334, max 1434, sum 2768 and mean 1384. -/
theorem C1_single_label_statistic_witness :
    ([1334, 1434] : List Int) ≠ [] ∧
    ∃ s : OperationStatistic,
      (OperatorProfiler.empty.reportAll
        (([1334, 1434] : List Int).map fun d => ("tf", d))).stats = [("tf", s)] ∧
      s = OperationStatistic.mk 2 1334 1434 2768 ∧ s.mean = 1384 := by
  refine ⟨by decide, ?_⟩
  obtain ⟨s, h1, h2, h3, h4, h5, h6, h7, h8, -⟩ :=
    C1_single_label_statistic "tf" [1334, 1434] (by decide)
  refine ⟨s, h1, ?_, ?_⟩
  · have a1 := h5 1334 (by simp)
    have a2 := h7 1434 (by simp)
    simp only [List.mem_cons, List.mem_singleton, List.not_mem_nil, or_false] at h4 h6
    obtain ⟨c, mn, mx, sm⟩ := s
    simp only [List.length_cons, List.length_nil, List.sum_cons, List.sum_nil] at h2 h3
    simp only at h2 h3 h4 h6 a1 a2
    have e1 : c = 2 := by omega
    have e2 : mn = 1334 := by omega
    have e3 : mx = 1434 := by omega
    have e4 : sm = 2768 := by omega
    subst e1 e2 e3 e4
    rfl
  · rw [h8]
    norm_num


theorem mem_iff_lookupIn (l : List (String × OperationStatistic)) (h : (l.map Prod.fst).Nodup)
    (k : String) (s : OperationStatistic) : (k, s) ∈ l ↔ lookupIn l k = some s := by
  induction l with
  | nil => simp [lookupIn]
  | cons e rest ih =>
    obtain ⟨k0, s0⟩ := e
    rw [List.map_cons, List.nodup_cons] at h
    obtain ⟨hnot, hrest⟩ := h
    by_cases hk : k0 = k
    · subst hk
      have hno : (k0, s) ∉ rest := fun hm =>
        hnot (List.mem_map.2 ⟨(k0, s), hm, rfl⟩)
      simp only [List.mem_cons, Prod.mk.injEq, true_and, hno, or_false, lookupIn, if_true,
        Option.some.injEq]
      exact eq_comm
    · have hk' : ¬ k = k0 := fun e => hk e.symm
      simp [lookupIn, hk, hk', ih hrest]

/-- C2: order-independence of aggregation.  Applying a list of
`(label, duration)` reports and any permutation of it to the empty operator
profiler gives the same statistic for every label, and the same entries (hence
the same rows) up to their order. -/
theorem C2_report_order_independent (rs rs' : List (String × Int)) (h : rs.Perm rs') :
    (∀ L, (OperatorProfiler.empty.reportAll rs).lookup L =
      (OperatorProfiler.empty.reportAll rs').lookup L) ∧
    (OperatorProfiler.empty.reportAll rs).stats.Perm (OperatorProfiler.empty.reportAll rs').stats := by
  have hl : ∀ L, (OperatorProfiler.empty.reportAll rs).lookup L =
      (OperatorProfiler.empty.reportAll rs').lookup L := by
    intro L
    rw [lookup_reportAll, lookup_reportAll]
    exact List.Perm.foldl_eq' ((h.filter _).map Prod.snd)
      (fun x _ y _ z => combine_comm z x y) _
  refine ⟨hl, ?_⟩
  have hn : ∀ xs : List (String × Int),
      ((OperatorProfiler.empty.reportAll xs).stats.map Prod.fst).Nodup := fun xs =>
    (labels_reportAll xs OperatorProfiler.empty).1 (by simp [OperatorProfiler.labels,
      OperatorProfiler.empty])
  rw [List.perm_ext_iff_of_nodup (List.Nodup.of_map _ (hn rs)) (List.Nodup.of_map _ (hn rs'))]
  rintro ⟨k, s⟩
  rw [mem_iff_lookupIn _ (hn rs), mem_iff_lookupIn _ (hn rs')]
  have := hl k
  simp only [OperatorProfiler.lookup] at this
  rw [this]

/-- Witness of C2: the two reports of the test in both orders. -/
theorem C2_report_order_independent_witness :
    ([("tf", 1334), ("tf", 1434)] : List (String × Int)).Perm [("tf", 1434), ("tf", 1334)] ∧
    (∀ L, (OperatorProfiler.empty.reportAll [("tf", 1334), ("tf", 1434)]).lookup L =
      (OperatorProfiler.empty.reportAll [("tf", 1434), ("tf", 1334)]).lookup L) ∧
    (OperatorProfiler.empty.reportAll [("tf", 1334), ("tf", 1434)]).stats.Perm
      (OperatorProfiler.empty.reportAll [("tf", 1434), ("tf", 1334)]).stats :=
  ⟨List.Perm.swap _ _ _, C2_report_order_independent _ _ (List.Perm.swap _ _ _)⟩

/-- C3: finishing, at the explicit finish time `f`, a span started with the
caller-supplied start time `s ≤ f` reports exactly one duration, `f - s`
nanoseconds, under the span's aggregation key (its operation name): the span
keeps the start time it was given, the profiler after the finish is the
profiler before with that one report applied, the statistic of the key counts
one report more, and no other statistic changes. -/
theorem C3_finish_reports_elapsed (p : OperatorProfiler) (operationName label : String)
    (s f : Int) (h : s ≤ f) :
    (StartSpanFromContext operationName label s).start = s ∧
    0 ≤ f - s ∧
    (StartSpanFromContext operationName label s).FinishWithOptions f p =
      p.report operationName (f - s) ∧
    ((StartSpanFromContext operationName label s).FinishWithOptions f p).lookup operationName =
      combine (p.lookup operationName) (f - s) ∧
    (∃ st, ((StartSpanFromContext operationName label s).FinishWithOptions f p).lookup
        operationName = some st ∧
      st.count = (match p.lookup operationName with
        | some st0 => st0.count + 1
        | none => 1)) ∧
    ∀ K, K ≠ operationName →
      ((StartSpanFromContext operationName label s).FinishWithOptions f p).lookup K =
        p.lookup K := by
  refine ⟨rfl, by omega, rfl, ?_, ?_, ?_⟩
  · simp [OperatorProfilingSpan.FinishWithOptions, StartSpanFromContext, lookup_report]
  · simp only [OperatorProfilingSpan.FinishWithOptions, StartSpanFromContext, lookup_report,
      if_true]
    cases p.lookup operationName <;>
      simp [combine, OperationStatistic.add, OperationStatistic.first]
  · intro K hK
    have hK' : ¬ operationName = K := fun e => hK e.symm
    simp [OperatorProfilingSpan.FinishWithOptions, StartSpanFromContext, lookup_report, hK']

/-- Witness of C3, the test: start 12:30:00.000000000 and finish
12:30:00.000001334 report 1334 under `tf`. -/
theorem C3_finish_reports_elapsed_witness :
    testTime 0 ≤ testTime 1334 ∧
    (StartSpanFromContext "tf" "op0" (testTime 0)).FinishWithOptions (testTime 1334)
      OperatorProfiler.empty = OperatorProfiler.empty.report "tf" 1334 := by
  refine ⟨by decide, ?_⟩
  have h := (C3_finish_reports_elapsed OperatorProfiler.empty "tf" "op0" (testTime 0)
    (testTime 1334) (by decide)).2.2.1
  rw [h]
  rfl


/-- The operator profiler test passes on the model: the two spans of the test
render the expected table. -/
theorem TestOperatorProfiler_GetResult :
    testOperatorProfiler.GetResult = Except.ok TestOperatorProfiler_want := by
  simp [testOperatorProfiler, testFn, OperatorProfiler.GetResult, TestOperatorProfiler_want,
    StartSpanFromContext, OperatorProfilingSpan.FinishWithOptions, OperatorProfiler.report,
    reportInto, OperatorProfiler.empty, OperationStatistic.first, OperationStatistic.add,
    operatorColMeta, operatorRow, operatorMeasurement, OperationStatistic.mean, testTime]
  norm_num

/-- The query profiler test passes on the model. -/
theorem TestQueryProfiler_GetResult (render : List MetaValue → Value) :
    QueryProfiler.GetResult render testQuery = Except.ok (some TestQueryProfiler_want) := rfl

/-- C6: for every finite sequence of reports to the empty operator profiler,
`GetResult` renders one row per distinct label: the rows are the renderings of
the kept statistics, one per kept label in the same order, no label is kept
twice, the kept labels are exactly the labels that received a report, and the
number of rows is the number of distinct labels. -/
theorem C6_one_row_per_label (rs : List (String × Int)) :
    ∃ t : Table, (OperatorProfiler.empty.reportAll rs).GetResult = Except.ok t ∧
      t.rows = (OperatorProfiler.empty.reportAll rs).stats.map (fun e => operatorRow e.2) ∧
      t.rows.length = (OperatorProfiler.empty.reportAll rs).labels.length ∧
      (OperatorProfiler.empty.reportAll rs).labels.Nodup ∧
      (∀ L, L ∈ (OperatorProfiler.empty.reportAll rs).labels ↔ L ∈ rs.map Prod.fst) ∧
      t.rows.length = (rs.map Prod.fst).dedup.length := by
  obtain ⟨hn, hm⟩ := labels_reportAll rs OperatorProfiler.empty
  have hn' := hn (by simp [OperatorProfiler.labels, OperatorProfiler.empty])
  have hm' : ∀ L, L ∈ (OperatorProfiler.empty.reportAll rs).labels ↔ L ∈ rs.map Prod.fst := by
    intro L
    rw [hm L]
    simp [OperatorProfiler.labels, OperatorProfiler.empty]
  have hlen : ((OperatorProfiler.empty.reportAll rs).stats.map (fun e => operatorRow e.2)).length =
      (OperatorProfiler.empty.reportAll rs).labels.length := by
    simp [OperatorProfiler.labels]
  refine ⟨_, rfl, rfl, hlen, hn', hm', ?_⟩
  have hp : (OperatorProfiler.empty.reportAll rs).labels.Perm (rs.map Prod.fst).dedup := by
    rw [List.perm_ext_iff_of_nodup hn' (List.nodup_dedup _)]
    intro L
    rw [hm' L, List.mem_dedup]
  show ((OperatorProfiler.empty.reportAll rs).stats.map (fun e => operatorRow e.2)).length = _
  rw [hlen, hp.length_eq]

/-- C7: rendering an operator profiler that has received no report succeeds and
gives a table without rows. -/
theorem C7_no_reports_no_rows :
    ∃ t : Table, OperatorProfiler.empty.GetResult = Except.ok t ∧ t.rows = [] :=
  ⟨_, rfl, rfl⟩

/-- C8: for every query that has not signaled completion, the query profiler
returns the explicit absent result without failing; every completed query
gets a table with exactly one row, so the two outcomes always differ, also
when all statistics of the completed query are zero.  This holds for every
rendering `render` of the value lists that the specification leaves open. -/
theorem C8_incomplete_query_absent (render : List MetaValue → Value) (q : Query)
    (h : q.done = false) :
    QueryProfiler.GetResult render q = Except.ok none ∧
    ∀ (render2 : List MetaValue → Value) (q2 : Query), q2.done = true →
      (∃ t row, QueryProfiler.GetResult render2 q2 = Except.ok (some t) ∧ t.rows = [row]) ∧
      QueryProfiler.GetResult render2 q2 ≠ QueryProfiler.GetResult render q := by
  have h1 : QueryProfiler.GetResult render q = Except.ok none := by
    simp [QueryProfiler.GetResult, h]
  refine ⟨h1, ?_⟩
  intro render2 q2 h2
  have h3 : ∃ t row, QueryProfiler.GetResult render2 q2 = Except.ok (some t) ∧
      t.rows = [row] := by
    simp only [QueryProfiler.GetResult, h2, if_true]
    exact ⟨_, _, rfl, rfl⟩
  refine ⟨h3, ?_⟩
  obtain ⟨t, row, e, _⟩ := h3
  rw [e, h1]
  intro hc
  cases hc

/-- Witness of C8: the query of the test before `q.Done()` gets the absent
result, while the completed query with all-zero statistics gets a row. -/
theorem C8_incomplete_query_absent_witness :
    Query.new.done = false ∧
    ∀ render : List MetaValue → Value,
      QueryProfiler.GetResult render Query.new = Except.ok none ∧
      QueryProfiler.GetResult render Query.new.Done ≠ QueryProfiler.GetResult render Query.new :=
  ⟨rfl, fun render => ⟨(C8_incomplete_query_absent render Query.new rfl).1,
    ((C8_incomplete_query_absent render Query.new rfl).2 render Query.new.Done rfl).2⟩⟩

/-- C9: per-label monotonicity.  For every profiler state, every label `L`
that has a statistic and every report of a non-negative duration under any
label, `L` still has a statistic after the report, with count and sum not
smaller, min not greater and max not smaller than before. -/
theorem C9_statistics_monotonic (p : OperatorProfiler) (L : String) (s : OperationStatistic)
    (L2 : String) (d : Int) (hL : p.lookup L = some s) (hd : 0 ≤ d) :
    ∃ s2 : OperationStatistic, (p.report L2 d).lookup L = some s2 ∧
      s.count ≤ s2.count ∧ s.sumDuration ≤ s2.sumDuration ∧
      s2.minDuration ≤ s.minDuration ∧ s.maxDuration ≤ s2.maxDuration := by
  rw [lookup_report]
  by_cases h : L2 = L
  · subst h
    rw [if_pos rfl, hL]
    refine ⟨s.add d, rfl, ?_, ?_, ?_, ?_⟩
    · show s.count ≤ s.count + 1
      omega
    · show s.sumDuration ≤ s.sumDuration + d
      omega
    · exact min_le_left _ _
    · exact le_max_left _ _
  · rw [if_neg h, hL]
    exact ⟨s, rfl, le_refl _, le_refl _, le_refl _, le_refl _⟩

/-- Witness of C9: after the first span of the test, the report of the second
one, 1434 under `tf`. -/
theorem C9_statistics_monotonic_witness :
    (OperatorProfiler.mk [("tf", OperationStatistic.first 1334)]).lookup "tf" =
      some (OperationStatistic.first 1334) ∧ (0 : Int) ≤ 1434 ∧
    ∃ s2 : OperationStatistic,
      ((OperatorProfiler.mk [("tf", OperationStatistic.first 1334)]).report "tf" 1434).lookup "tf" =
        some s2 ∧
      (OperationStatistic.first 1334).count ≤ s2.count ∧
      (OperationStatistic.first 1334).sumDuration ≤ s2.sumDuration ∧
      s2.minDuration ≤ (OperationStatistic.first 1334).minDuration ∧
      (OperationStatistic.first 1334).maxDuration ≤ s2.maxDuration :=
  ⟨by decide, by decide,
    C9_statistics_monotonic (OperatorProfiler.mk [("tf", OperationStatistic.first 1334)]) "tf"
      (OperationStatistic.first 1334) "tf" 1434 (by decide) (by decide)⟩

end execute

/-! # Theorems: `walk` -/

namespace semantic

variable {α V σ : Type}

theorem subnodesList_eq (ns : List (Node α)) : subnodesList ns = ns.flatMap Node.subnodes := by
  induction ns with
  | nil => simp [subnodesList]
  | cons n ns ih => simp [subnodesList, ih]

theorem subnodes_eq (n : Node α) : n.subnodes = n :: n.children.flatMap Node.subnodes := by
  cases n
  case CallExpression i c a p => cases p <;> simp [Node.subnodes, Node.children]
  all_goals simp [Node.subnodes, Node.children, subnodesList_eq]

theorem subnodes_length_lt (n c : Node α) (h : c ∈ n.children) :
    c.subnodes.length < n.subnodes.length := by
  rw [subnodes_eq n, List.length_cons]
  have : c.subnodes.length ≤ (n.children.flatMap Node.subnodes).length := by
    have hsub : List.Sublist c.subnodes (n.children.flatMap Node.subnodes) :=
      List.sublist_flatten_of_mem (List.mem_map.2 ⟨c, h, rfl⟩)
    exact hsub.length_le
  omega

/-- Induction over a tree along the child fields `walk` follows. -/
theorem Node.induction_children {P : Node α → Prop}
    (step : ∀ n : Node α, (∀ c ∈ n.children, P c) → P n) : ∀ n, P n := by
  have key : ∀ k : Nat, ∀ n : Node α, n.subnodes.length ≤ k → P n := by
    intro k
    induction k with
    | zero =>
      intro n hn
      rw [subnodes_eq n] at hn
      simp at hn
    | succ k ih =>
      intro n hn
      apply step
      intro c hc
      apply ih
      have := subnodes_length_lt n c hc
      omega
  intro n
  exact key _ n (le_refl _)

theorem walkList_append (vis : Visitor α V σ) (w : V) (a b : List (Node α)) (r : Run α V σ) :
    walkList vis w (a ++ b) r = walkList vis w b (walkList vis w a r) := by
  induction a generalizing r with
  | nil => simp [walkList]
  | cons n ns ih => simp [walkList, ih]

theorem ifVisit_leaf (vis : Visitor α V σ) (v : V) (n : Node α) (r : Run α V σ) :
    ifVisit vis v n r (fun _ r1 => r1) = (callVisit vis v n r).2 := by
  unfold ifVisit
  rcases callVisit vis v n r with ⟨_ | w, r1⟩ <;> rfl

theorem walk_eq (vis : Visitor α V σ) (v : V) (n : Node α) (r : Run α V σ)
    (h : n.isNil = false) :
    walk vis v n r =
      callDone vis v (ifVisit vis v n r fun w r1 => walkList vis w n.children r1) := by
  cases n
  case nilInterface => simp [Node.isNil] at h
  case nilPointer k => simp [Node.isNil] at h
  case CallExpression i c a p => cases p <;> simp [walk, Node.children, walkList]
  all_goals simp only [walk, Node.children, walkList, walkList_append, ifVisit_leaf]
theorem isNil_cases (n : Node α) (h : n.isNil = true) :
    n = Node.nilInterface ∨ ∃ k, n = Node.nilPointer k := by
  cases n <;> simp [Node.isNil] at h
  · exact Or.inl rfl
  · exact Or.inr ⟨_, rfl⟩

theorem walkList_framed (vis : Visitor α V σ) (ns : List (Node α))
    (h : ∀ c ∈ ns, Framed vis c) (w : V) (r : Run α V σ) :
    walkList vis w ns r = Run.mk (walkList vis w ns (Run.mk r.state [])).state
      (r.trace ++ (walkList vis w ns (Run.mk r.state [])).trace) := by
  induction ns generalizing r with
  | nil => simp [walkList]
  | cons n ns ih =>
    have hn := h n (List.mem_cons_self _ _)
    have ih2 := fun r => ih (fun c hc => h c (List.mem_cons_of_mem _ hc)) r
    simp only [walkList]
    rw [hn w r, ih2, ih2 (walk vis w n (Run.mk r.state []))]
    simp [List.append_assoc]

theorem walk_framed (vis : Visitor α V σ) (n : Node α) : Framed vis n := by
  induction n using Node.induction_children with
  | step n ih =>
    intro v r
    by_cases hnil : n.isNil = true
    · rcases isNil_cases n hnil with rfl | ⟨k, rfl⟩
      · simp [walk, callDone]
      · simp [walk]
    · have hnil2 : n.isNil = false := by simpa using hnil
      have hl := walkList_framed vis n.children ih
      rw [walk_eq vis v n r hnil2, walk_eq vis v n _ hnil2]
      simp only [ifVisit, callVisit, callDone]
      rcases hv : vis.Visit v n r.state with ⟨_ | w, s1⟩
      · simp
      · simp only []
        rw [hl w (Run.mk s1 (r.trace ++ [Event.visit v n])),
          hl w (Run.mk s1 ([] ++ [Event.visit v n]))]
        simp [List.append_assoc]

theorem walkList_frame (vis : Visitor α V σ) (ns : List (Node α)) (w : V) (r : Run α V σ) :
    walkList vis w ns r = Run.mk (walkList vis w ns (Run.mk r.state [])).state
      (r.trace ++ (walkList vis w ns (Run.mk r.state [])).trace) :=
  walkList_framed vis ns (fun c _ => walk_framed vis c) w r

/-- The calls of `Walk` on a non-nil node: its `Visit`, the calls for its
children, its `Done`. -/
theorem Walk_trace (vis : Visitor α V σ) (v : V) (n : Node α) (s : σ) (h : n.isNil = false) :
    (Walk vis v n s).trace = Event.visit v n :: (childTrace vis v n s ++ [Event.done v]) := by
  unfold Walk
  rw [walk_eq vis v n _ h]
  simp only [ifVisit, callVisit, callDone, childTrace]
  rcases hv : vis.Visit v n s with ⟨_ | w, s1⟩
  · simp
  · simp only []
    rw [walkList_frame vis n.children w (Run.mk s1 ([] ++ [Event.visit v n]))]
    simp

theorem Nested.append {a b : List (Event α V)} (ha : Nested a) (hb : Nested b) :
    Nested (a ++ b) := by
  induction ha with
  | nil => simpa using hb
  | block v n hi _ _ ih2 =>
    rw [List.cons_append, List.append_assoc, List.cons_append]
    exact Nested.block v n hi ih2

theorem visits_append (a b : List (Event α V)) : visits (a ++ b) = visits a + visits b := by
  induction a with
  | nil => simp [visits]
  | cons e t ih =>
    cases e
    · simp [visits, ih]; omega
    · simp [visits, ih]

theorem dones_append (a b : List (Event α V)) : dones (a ++ b) = dones a + dones b := by
  induction a with
  | nil => simp [dones]
  | cons e t ih =>
    cases e
    · simp [dones, ih]
    · simp [dones, ih]; omega

theorem Nested.dones_eq_visits {t : List (Event α V)} (h : Nested t) : dones t = visits t := by
  induction h with
  | nil => rfl
  | block v n _ _ ih1 ih2 =>
    simp only [visits, dones, visits_append, dones_append, ih1, ih2]
    omega

theorem noNil_iff (n : Node α) :
    n.noNil = true ↔ n.isNil = false ∧ ∀ c ∈ n.children, c.noNil = true := by
  unfold Node.noNil
  rw [subnodes_eq n]
  simp only [List.all_cons, Bool.and_eq_true, Bool.not_eq_true', List.all_eq_true,
    List.mem_flatMap]
  constructor
  · rintro ⟨h1, h2⟩
    exact ⟨h1, fun c hc m hm => h2 m ⟨c, hc, hm⟩⟩
  · rintro ⟨h1, h2⟩
    exact ⟨h1, fun m ⟨c, hc, hm⟩ => h2 c hc m hm⟩

theorem walkList_nested (vis : Visitor α V σ) (ns : List (Node α))
    (h : ∀ c ∈ ns, ∀ (v : V) (s : σ), Nested (walk vis v c (Run.mk s [])).trace)
    (w : V) (s : σ) : Nested (walkList vis w ns (Run.mk s [])).trace := by
  induction ns generalizing s with
  | nil => exact Nested.nil
  | cons n ns ih =>
    simp only [walkList]
    rw [walkList_frame]
    exact Nested.append (h n (List.mem_cons_self _ _) w s)
      (ih (fun c hc => h c (List.mem_cons_of_mem _ hc)) _)

theorem walk_nested (vis : Visitor α V σ) (n : Node α) :
    n.noNil = true → ∀ (v : V) (s : σ), Nested (walk vis v n (Run.mk s [])).trace := by
  induction n using Node.induction_children with
  | step n ih =>
    intro hn v s
    obtain ⟨h1, h2⟩ := (noNil_iff n).1 hn
    have ht := Walk_trace vis v n s h1
    unfold Walk at ht
    rw [ht]
    have hc : Nested (childTrace vis v n s) := by
      unfold childTrace
      rcases vis.Visit v n s with ⟨_ | w, s1⟩
      · exact Nested.nil
      · exact walkList_nested vis n.children (fun c hc => ih c hc (h2 c hc)) w s1
    exact Nested.block v n hc Nested.nil

/-- C10: guaranteed post-visit hook.  For every visitor and every tree in which
every child field holds a non-nil node, the calls of `Walk` on a node are its
`Visit`, then the calls made while its children are walked, then its `Done`,
on the visitor that received the `Visit`; the calls for the children and the
whole trace are properly nested, every `Visit` being closed by one `Done`, and
the trace has as many `Done` calls as `Visit` calls. -/
theorem C10_done_after_visit (vis : Visitor α V σ) (v : V) (n : Node α) (s : σ)
    (h : n.noNil = true) :
    (Walk vis v n s).trace = Event.visit v n :: (childTrace vis v n s ++ [Event.done v]) ∧
    Nested (childTrace vis v n s) ∧
    Nested (Walk vis v n s).trace ∧
    dones (Walk vis v n s).trace = visits (Walk vis v n s).trace := by
  have hw : Nested (Walk vis v n s).trace := walk_nested vis n h v s
  refine ⟨Walk_trace vis v n s ((noNil_iff n).1 h).1, ?_, hw, hw.dones_eq_visits⟩
  unfold childTrace
  rcases vis.Visit v n s with ⟨_ | w, s1⟩
  · exact Nested.nil
  · exact walkList_nested vis n.children
      (fun c hc => walk_nested vis c (((noNil_iff n).1 h).2 c hc)) w s1

/-- Witness of C10: a program with a call whose argument object holds a binary
expression, walked by a visitor that stops at binary expressions. -/
theorem C10_done_after_visit_witness :
    exampleTree.noNil = true ∧
    (Walk exampleVisitor 0 exampleTree 0).trace =
      Event.visit 0 exampleTree ::
        (childTrace exampleVisitor 0 exampleTree 0 ++ [Event.done 0]) ∧
    Nested (childTrace exampleVisitor 0 exampleTree 0) ∧
    Nested (Walk exampleVisitor 0 exampleTree 0).trace ∧
    dones (Walk exampleVisitor 0 exampleTree 0).trace =
      visits (Walk exampleVisitor 0 exampleTree 0).trace :=
  ⟨by decide, C10_done_after_visit exampleVisitor 0 exampleTree 0 (by decide)⟩

end semantic

/-! # Theorems: builtin conversions -/

namespace Universe

/-- C12: each builtin conversion object is a function value and nothing else:
`Function` returns the object itself, `IsNull` and `HasSideEffect` return
false, and each of `Str`, `Bytes`, `Int`, `UInt`, `Float`, `Bool`, `Time`,
`Duration`, `Regexp`, `Array`, `Object` and `Dict` panics with an
unexpected-kind error for the kind asked for, instead of returning a value
(the first six report the kind found as Function, the last six as Float). -/
theorem C12_conv_is_function_only (c : Conv) :
    c.Function = Except.ok c ∧ c.IsNull = false ∧ c.HasSideEffect = false ∧
    c.Str = Except.error (Panic.UnexpectedKind Nature.Function Nature.String) ∧
    c.Bytes = Except.error (Panic.UnexpectedKind Nature.Function Nature.Bytes) ∧
    c.Int = Except.error (Panic.UnexpectedKind Nature.Function Nature.Int) ∧
    c.UInt = Except.error (Panic.UnexpectedKind Nature.Function Nature.UInt) ∧
    (∀ F : Type, (c.Float : Except Panic F) =
      Except.error (Panic.UnexpectedKind Nature.Function Nature.Float)) ∧
    c.Bool = Except.error (Panic.UnexpectedKind Nature.Function Nature.Bool) ∧
    c.Time = Except.error (Panic.UnexpectedKind Nature.Float Nature.Time) ∧
    (∀ D : Type, (c.Duration : Except Panic D) =
      Except.error (Panic.UnexpectedKind Nature.Float Nature.Duration)) ∧
    (∀ T : Type, (c.Regexp : Except Panic T) =
      Except.error (Panic.UnexpectedKind Nature.Float Nature.Regexp)) ∧
    (∀ T : Type, (c.Array : Except Panic T) =
      Except.error (Panic.UnexpectedKind Nature.Float Nature.Array)) ∧
    (∀ T : Type, (c.Object : Except Panic T) =
      Except.error (Panic.UnexpectedKind Nature.Float Nature.Object)) ∧
    (∀ T : Type, (c.Dict : Except Panic T) =
      Except.error (Panic.UnexpectedKind Nature.Float Nature.Dictionary)) := by
  cases c <;>
    exact ⟨rfl, rfl, rfl, rfl, rfl, rfl, rfl, fun _ => rfl, rfl, rfl, fun _ => rfl,
      fun _ => rfl, fun _ => rfl, fun _ => rfl, fun _ => rfl⟩

/-- C13: for each of the eight conversion functions and every argument object
without an entry named `v`, whatever else it holds, the call returns no value
and the error `errMissingArg`, built with code Invalid from the format
`missing argument %q` and the name `v`. -/
theorem C13_missing_argument {F D : Type} (lib : Lib F D) (f : ConvFn) (args : Object F D)
    (h : args.Get "v" = none) :
    f.Call lib args = Result.err errMissingArg ∧
    (errMissingArg : Error F) =
      Error.Newf Code.Invalid "missing argument %q" [FmtArg.str "v"] := by
  refine ⟨?_, rfl⟩
  cases f <;>
    simp [ConvFn.Call, stringConv.Call, intConv.Call, uintConv.Call, floatConv.Call,
      boolConv.Call, timeConv.Call, durationConv.Call, bytes.Call, conversionArg, h]

/-- Witness of C13: `int(x: 1, value: "a")`. -/
theorem C13_missing_argument_witness :
    Object.Get ([("x", Value.int 1), ("value", Value.string "a")] : Object Int Int) "v" = none ∧
    ConvFn.int.Call sampleLib [("x", Value.int 1), ("value", Value.string "a")] =
      Result.err errMissingArg ∧
    (errMissingArg : Error Int) =
      Error.Newf Code.Invalid "missing argument %q" [FmtArg.str "v"] :=
  ⟨by decide, C13_missing_argument sampleLib ConvFn.int _ (by decide)⟩

/-- C14: the bool conversion of a string succeeds exactly on `true` and
`false`, with the matching result; of an int or uint exactly on 0 and 1, with
false for 0 and true for 1; of a bool it returns the argument; every other
string or integer is rejected with an Invalid error. -/
theorem C14_bool_conversion {F D : Type} (lib : Lib F D) (args : Object F D) (v : Value F D)
    (h : args.Get "v" = some v) :
    (∀ s : String, v = Value.string s →
      boolConv.Call lib args =
        if s = "true" then Result.ok (Value.bool true)
        else if s = "false" then Result.ok (Value.bool false)
        else Result.err (Error.Newf Code.Invalid "cannot convert string %q to bool"
          [FmtArg.str s])) ∧
    (∀ n : Int, v = Value.int n →
      boolConv.Call lib args =
        if n = 0 then Result.ok (Value.bool false)
        else if n = 1 then Result.ok (Value.bool true)
        else Result.err (Error.Newf Code.Invalid
          "cannot convert int %d to bool, must be 0 or 1" [FmtArg.int n])) ∧
    (∀ n : Nat, v = Value.uint n →
      boolConv.Call lib args =
        if n = 0 then Result.ok (Value.bool false)
        else if n = 1 then Result.ok (Value.bool true)
        else Result.err (Error.Newf Code.Invalid
          "cannot convert uint %d to bool, must be 0 or 1" [FmtArg.uint n])) ∧
    (∀ b : Bool, v = Value.bool b → boolConv.Call lib args = Result.ok (Value.bool b)) := by
  refine ⟨?_, ?_, ?_, ?_⟩ <;>
    · intro x hx
      subst hx
      simp [boolConv.Call, conversionArg, h, Value.IsNull, Value.Type, Value.withStr,
        Value.withInt, Value.withUInt, Value.withBool]

/-- Witness of C14: `bool(v: "true")`, `bool(v: 2)`. -/
theorem C14_bool_conversion_witness :
    Object.Get ([("v", Value.string "true")] : Object Int Int) "v" =
      some (Value.string "true") ∧
    boolConv.Call sampleLib [("v", Value.string "true")] = Result.ok (Value.bool true) ∧
    Object.Get ([("v", Value.int 2)] : Object Int Int) "v" = some (Value.int 2) ∧
    boolConv.Call sampleLib [("v", Value.int 2)] =
      Result.err (Error.Newf Code.Invalid "cannot convert int %d to bool, must be 0 or 1"
        [FmtArg.int 2]) := by
  refine ⟨by decide, ?_, by decide, ?_⟩
  · have h := (C14_bool_conversion sampleLib [("v", Value.string "true")]
      (Value.string "true") (by decide)).1 "true" rfl
    simpa using h
  · have h := (C14_bool_conversion sampleLib [("v", Value.int 2)]
      (Value.int 2) (by decide)).2.1 2 rfl
    simpa using h

/-- C15: for every conversion and every non-null argument whose kind is outside
the conversion's supported set, the call returns no value and the Invalid
error `cannot convert <type> to <target>`; for int, uint, time and duration, a
non-null argument of a supported kind other than string never fails. -/
theorem C15_unsupported_kind {F D : Type} (lib : Lib F D) (f : ConvFn) (args : Object F D)
    (v : Value F D) (h : args.Get "v" = some v) (hn : v.IsNull = false) :
    (v.Type.nature ∉ f.claimedSupported →
      f.Call lib args =
        Result.err (Error.Newf Code.Invalid f.cannotConvert [FmtArg.type v.Type])) ∧
    (f ∈ [ConvFn.int, ConvFn.uint, ConvFn.time, ConvFn.duration] →
      v.Type.nature ∈ f.claimedSupported → v.Type.nature ≠ Nature.String →
      (f.Call lib args).fails = false) := by
  cases v with
  | null t => simp [Value.IsNull] at hn
  | _ =>
    cases f <;>
      simp [ConvFn.Call, stringConv.Call, intConv.Call, uintConv.Call, floatConv.Call,
        boolConv.Call, timeConv.Call, durationConv.Call, bytes.Call, conversionArg, h,
        Value.IsNull, Value.Type, ConvFn.claimedSupported, ConvFn.cannotConvert,
        Value.withInt, Value.withUInt, Value.withFloat, Value.withBool, Value.withTime,
        Value.withDuration, Result.fails]

/-- Witness of C15: `float(v: <time>)` is rejected, `duration(v: 5)` succeeds. -/
theorem C15_unsupported_kind_witness :
    Object.Get ([("v", Value.time 0)] : Object Int Int) "v" = some (Value.time 0) ∧
    (Value.time 0 : Value Int Int).IsNull = false ∧
    floatConv.Call sampleLib [("v", Value.time 0)] =
      Result.err (Error.Newf Code.Invalid "cannot convert %v to float"
        [FmtArg.type (MonoType.mk Nature.Time "")]) ∧
    (durationConv.Call sampleLib [("v", Value.int 5)]).fails = false := by
  refine ⟨by decide, by decide, ?_, ?_⟩
  · have h := (C15_unsupported_kind sampleLib ConvFn.float [("v", Value.time 0)] (Value.time 0)
      (by decide) (by decide)).1 (by decide)
    simpa [ConvFn.Call, ConvFn.cannotConvert, Value.Type] using h
  · exact (C15_unsupported_kind sampleLib ConvFn.duration [("v", Value.int 5)] (Value.int 5)
      (by decide) (by decide)).2 (by decide) (by decide) (by decide)

end Universe

/-! # Theorems: statistics invariant -/

namespace execute

/-- The combination of count, min, max and sum that reports of non-negative
durations keep. -/
theorem combine_invariant (o : Option OperationStatistic) (d : Int) (hd : 0 ≤ d)
    (ho : ∀ s, o = some s → 1 ≤ s.count ∧ 0 ≤ s.minDuration ∧ s.minDuration ≤ s.maxDuration ∧
      s.maxDuration ≤ s.sumDuration ∧ s.count * s.minDuration ≤ s.sumDuration ∧
      s.sumDuration ≤ s.count * s.maxDuration) :
    ∀ s, combine o d = some s → 1 ≤ s.count ∧ 0 ≤ s.minDuration ∧
      s.minDuration ≤ s.maxDuration ∧ s.maxDuration ≤ s.sumDuration ∧
      s.count * s.minDuration ≤ s.sumDuration ∧ s.sumDuration ≤ s.count * s.maxDuration := by
  intro s hs
  cases o with
  | none =>
    simp only [combine, Option.some.injEq] at hs
    subst hs
    simp only [OperationStatistic.first]
    refine ⟨le_refl _, hd, le_refl _, le_refl _, ?_, ?_⟩ <;> omega
  | some s0 =>
    obtain ⟨h1, h2, h3, h4, h5, h6⟩ := ho s0 rfl
    simp only [combine, Option.some.injEq] at hs
    subst hs
    simp only [OperationStatistic.add]
    have m1 : min s0.minDuration d ≤ s0.minDuration := min_le_left _ _
    have m2 : min s0.minDuration d ≤ d := min_le_right _ _
    have x1 : s0.maxDuration ≤ max s0.maxDuration d := le_max_left _ _
    have x2 : d ≤ max s0.maxDuration d := le_max_right _ _
    have c0 : 0 ≤ s0.count := by omega
    have p1 : s0.count * min s0.minDuration d ≤ s0.count * s0.minDuration :=
      mul_le_mul_of_nonneg_left m1 c0
    have p2 : s0.count * s0.maxDuration ≤ s0.count * max s0.maxDuration d :=
      mul_le_mul_of_nonneg_left x1 c0
    refine ⟨by omega, le_min h2 hd, by omega, max_le (by omega) (by omega), ?_, ?_⟩
    · rw [add_mul, one_mul]
      omega
    · rw [add_mul, one_mul]
      omega

theorem foldl_combine_invariant (ds : List Int) (hd : ∀ d ∈ ds, 0 ≤ d)
    (o : Option OperationStatistic)
    (ho : ∀ s, o = some s → 1 ≤ s.count ∧ 0 ≤ s.minDuration ∧ s.minDuration ≤ s.maxDuration ∧
      s.maxDuration ≤ s.sumDuration ∧ s.count * s.minDuration ≤ s.sumDuration ∧
      s.sumDuration ≤ s.count * s.maxDuration) :
    ∀ s, ds.foldl combine o = some s → 1 ≤ s.count ∧ 0 ≤ s.minDuration ∧
      s.minDuration ≤ s.maxDuration ∧ s.maxDuration ≤ s.sumDuration ∧
      s.count * s.minDuration ≤ s.sumDuration ∧ s.sumDuration ≤ s.count * s.maxDuration := by
  induction ds generalizing o with
  | nil => simpa using ho
  | cons d ds ih =>
    rw [List.foldl_cons]
    exact ih (fun x hx => hd x (List.mem_cons_of_mem _ hx)) _
      (combine_invariant o d (hd d (List.mem_cons_self _ _)) ho)

/-- C16: in every operator profiler state reached from the empty one by a
finite sequence of reports of non-negative durations, the statistic of every
label has count at least 1, min ≤ max ≤ sum, and count·min ≤ sum ≤ count·max,
so that its mean lies between its min and its max. -/
theorem C16_statistic_consistent (rs : List (String × Int)) (h : ∀ r ∈ rs, 0 ≤ r.2)
    (L : String) (s : OperationStatistic)
    (hs : (OperatorProfiler.empty.reportAll rs).lookup L = some s) :
    1 ≤ s.count ∧ s.minDuration ≤ s.maxDuration ∧ s.maxDuration ≤ s.sumDuration ∧
    s.count * s.minDuration ≤ s.sumDuration ∧ s.sumDuration ≤ s.count * s.maxDuration ∧
    (s.minDuration : ℚ) ≤ s.mean ∧ s.mean ≤ (s.maxDuration : ℚ) := by
  rw [lookup_reportAll] at hs
  have hd : ∀ d ∈ (rs.filter fun r => decide (r.1 = L)).map Prod.snd, 0 ≤ d := by
    intro d hd
    obtain ⟨r, hr, rfl⟩ := List.mem_map.1 hd
    exact h r (List.mem_filter.1 hr).1
  have h0 : ∀ s, OperatorProfiler.empty.lookup L = some s → 1 ≤ s.count ∧ 0 ≤ s.minDuration ∧
      s.minDuration ≤ s.maxDuration ∧ s.maxDuration ≤ s.sumDuration ∧
      s.count * s.minDuration ≤ s.sumDuration ∧ s.sumDuration ≤ s.count * s.maxDuration := by
    intro s hs
    simp [OperatorProfiler.lookup, OperatorProfiler.empty, lookupIn] at hs
  obtain ⟨h1, _, h3, h4, h5, h6⟩ := foldl_combine_invariant _ hd _ h0 s hs
  have hc : (0 : ℚ) < (s.count : ℚ) := by exact_mod_cast (by omega : (0 : Int) < s.count)
  refine ⟨h1, h3, h4, h5, h6, ?_, ?_⟩
  · unfold OperationStatistic.mean
    rw [le_div_iff₀ hc]
    have : ((s.count * s.minDuration : Int) : ℚ) ≤ (s.sumDuration : ℚ) := by exact_mod_cast h5
    push_cast at this
    linarith
  · unfold OperationStatistic.mean
    rw [div_le_iff₀ hc]
    have : ((s.sumDuration : Int) : ℚ) ≤ ((s.count * s.maxDuration : Int) : ℚ) := by
      exact_mod_cast h6
    push_cast at this
    linarith

/-- Witness of C16: the two reports of the test. -/
theorem C16_statistic_consistent_witness :
    (∀ r ∈ ([("tf", 1334), ("tf", 1434)] : List (String × Int)), 0 ≤ r.2) ∧
    (OperatorProfiler.empty.reportAll [("tf", 1334), ("tf", 1434)]).lookup "tf" =
      some (OperationStatistic.mk 2 1334 1434 2768) ∧
    (1 : Int) ≤ 2 ∧ (1334 : Int) ≤ 1434 ∧ (1434 : Int) ≤ 2768 ∧
    (2 : Int) * 1334 ≤ 2768 ∧ (2768 : Int) ≤ 2 * 1434 ∧
    ((1334 : Int) : ℚ) ≤ (OperationStatistic.mk 2 1334 1434 2768).mean ∧
    (OperationStatistic.mk 2 1334 1434 2768).mean ≤ ((1434 : Int) : ℚ) :=
  ⟨by decide, by decide,
    C16_statistic_consistent [("tf", 1334), ("tf", 1434)] (by decide) "tf"
      (OperationStatistic.mk 2 1334 1434 2768) (by decide)⟩

end execute

/-! # Theorems: `walk`, order and hand-over -/

namespace semantic

variable {α V σ : Type}

theorem walkList_cons_trace (vis : Visitor α V σ) (w : V) (c : Node α) (ns : List (Node α))
    (s : σ) :
    (walkList vis w (c :: ns) (Run.mk s [])).trace =
      (Walk vis w c s).trace ++ (walkList vis w ns (Run.mk (Walk vis w c s).state [])).trace := by
  simp only [walkList, Walk]
  rw [walkList_frame]

theorem walkList_segments (vis : Visitor α V σ) (w : V) (ns : List (Node α)) (s : σ) :
    ∃ segs : List (List (Event α V)),
      List.Forall₂ (fun c seg => ∃ s2, seg = (Walk vis w c s2).trace) ns segs ∧
      (walkList vis w ns (Run.mk s [])).trace = segs.flatten := by
  induction ns generalizing s with
  | nil => exact ⟨[], List.Forall₂.nil, rfl⟩
  | cons c ns ih =>
    obtain ⟨segs, h1, h2⟩ := ih (Walk vis w c s).state
    refine ⟨(Walk vis w c s).trace :: segs, List.Forall₂.cons ⟨s, rfl⟩ h1, ?_⟩
    rw [walkList_cons_trace, h2, List.flatten_cons]

theorem walkList_visits_child (vis : Visitor α V σ) (w : V) (ns : List (Node α)) (s : σ)
    (c : Node α) (hc : c ∈ ns) (hnil : c.isNil = false) :
    Event.visit w c ∈ (walkList vis w ns (Run.mk s [])).trace := by
  induction ns generalizing s with
  | nil => simp at hc
  | cons n ns ih =>
    rw [walkList_cons_trace, List.mem_append]
    rcases List.mem_cons.1 hc with rfl | hc
    · left
      rw [Walk_trace vis w c s hnil]
      exact List.mem_cons_self _ _
    · right
      exact ih _ hc

theorem childTrace_of_some (vis : Visitor α V σ) (v w : V) (n : Node α) (s s1 : σ)
    (h : vis.Visit v n s = (some w, s1)) :
    childTrace vis v n s = (walkList vis w n.children (Run.mk s1 [])).trace := by
  simp [childTrace, h]

theorem childTrace_of_none (vis : Visitor α V σ) (v : V) (n : Node α) (s : σ)
    (h : (vis.Visit v n s).1 = none) : childTrace vis v n s = [] := by
  unfold childTrace
  rcases hv : vis.Visit v n s with ⟨_ | w, s1⟩
  · rfl
  · rw [hv] at h
    simp at h

/-- C11: stop on nil.  For every non-nil node `n`: if `Visit(n)` returns nil,
the calls of `Walk` are `Visit(n)` and `Done` and nothing else, so no
descendant is visited and `Done` is called once; if it returns a visitor `w`,
the calls are `Visit(n)`, the walk of the children with `w`, and `Done`, and
every non-nil child is visited. -/
theorem C11_stop_on_nil (vis : Visitor α V σ) (v : V) (n : Node α) (s : σ)
    (h : n.isNil = false) :
    ((vis.Visit v n s).1 = none →
      (Walk vis v n s).trace = [Event.visit v n, Event.done v]) ∧
    (∀ w, (vis.Visit v n s).1 = some w →
      (Walk vis v n s).trace = Event.visit v n ::
        ((walkList vis w n.children (Run.mk (vis.Visit v n s).2 [])).trace ++ [Event.done v]) ∧
      ∀ c ∈ n.children, c.isNil = false → Event.visit w c ∈ (Walk vis v n s).trace) := by
  constructor
  · intro hv
    rw [Walk_trace vis v n s h, childTrace_of_none vis v n s hv]
    rfl
  · intro w hv
    have hv2 : vis.Visit v n s = (some w, (vis.Visit v n s).2) := by
      rw [← hv]
    have ht : (Walk vis v n s).trace = Event.visit v n ::
        ((walkList vis w n.children (Run.mk (vis.Visit v n s).2 [])).trace ++
          [Event.done v]) := by
      rw [Walk_trace vis v n s h, childTrace_of_some vis v w n s _ hv2]
    refine ⟨ht, ?_⟩
    intro c hc hnil
    rw [ht]
    exact List.mem_cons_of_mem _
      (List.mem_append_left _ (walkList_visits_child vis w n.children _ c hc hnil))

/-- Witness of C11: the example visitor stops at the binary expression `1 + 2`
and goes on at the program. -/
theorem C11_stop_on_nil_witness :
    (Node.BinaryExpression "+" (Node.IntegerLiteral "1")
      (Node.IntegerLiteral "2") : Node String).isNil = false ∧
    (exampleVisitor.Visit 0 (Node.BinaryExpression "+" (Node.IntegerLiteral "1")
      (Node.IntegerLiteral "2")) 0).1 = none ∧
    (Walk exampleVisitor 0 (Node.BinaryExpression "+" (Node.IntegerLiteral "1")
      (Node.IntegerLiteral "2")) 0).trace =
      [Event.visit 0 (Node.BinaryExpression "+" (Node.IntegerLiteral "1")
        (Node.IntegerLiteral "2")), Event.done 0] :=
  ⟨rfl, rfl, (C11_stop_on_nil exampleVisitor 0 (Node.BinaryExpression "+"
    (Node.IntegerLiteral "1") (Node.IntegerLiteral "2")) 0 rfl).1 rfl⟩

/-- C17 fails for the nil interface value: `walk` returns without a call for a
nil pointer of any variant, but for the nil `Node` interface value it calls
`Done` without `Visit`, both when the value is passed to `Walk` and when it is
the `Argument` of a return statement, where the call goes to the visitor of
the children. -/
theorem C17_nil_interface_calls_Done :
    (∀ (vis : Visitor α V σ) (v : V) (s : σ) (k : Kind),
      (Walk vis v (Node.nilPointer k) s).trace = []) ∧
    (∀ (vis : Visitor α V σ) (v : V) (s : σ),
      (Walk vis v Node.nilInterface s).trace = [Event.done v]) ∧
    (Walk exampleVisitor 0 exampleReturn 0).trace =
      [Event.visit 0 exampleReturn, Event.done 1, Event.done 0] :=
  ⟨fun _ _ _ _ => rfl, fun _ _ _ => rfl, rfl⟩

theorem visitedNodes_append (a b : List (Event α V)) :
    visitedNodes (a ++ b) = visitedNodes a ++ visitedNodes b := by
  induction a with
  | nil => rfl
  | cons e t ih => cases e <;> simp [visitedNodes, ih]

theorem walkList_visitedNodes (vis : Visitor α V σ) (ns : List (Node α))
    (h : ∀ c ∈ ns, ∀ (v : V) (s : σ), visitedNodes (Walk vis v c s).trace = c.subnodes)
    (w : V) (s : σ) :
    visitedNodes (walkList vis w ns (Run.mk s [])).trace = ns.flatMap Node.subnodes := by
  induction ns generalizing s with
  | nil => rfl
  | cons c ns ih =>
    rw [walkList_cons_trace, visitedNodes_append, h c (List.mem_cons_self _ _),
      ih (fun c hc => h c (List.mem_cons_of_mem _ hc)), List.flatMap_cons]

theorem Walk_visitedNodes (vis : Visitor α V σ)
    (hself : ∀ (v : V) (n : Node α) (s : σ), (vis.Visit v n s).1 = some v) (n : Node α) :
    n.noNil = true → ∀ (v : V) (s : σ), visitedNodes (Walk vis v n s).trace = n.subnodes := by
  induction n using Node.induction_children with
  | step n ih =>
    intro hn v s
    obtain ⟨h1, h2⟩ := (noNil_iff n).1 hn
    have hv : vis.Visit v n s = (some v, (vis.Visit v n s).2) := by
      rw [← hself v n s]
    rw [Walk_trace vis v n s h1, childTrace_of_some vis v v n s _ hv, subnodes_eq n]
    simp only [visitedNodes, visitedNodes_append, List.append_nil]
    rw [walkList_visitedNodes vis n.children (fun c hc => ih c hc (h2 c hc))]

theorem Walk_visitedNodes_all (vis : Visitor α V σ)
    (hnn : ∀ (v : V) (n : Node α) (s : σ), (vis.Visit v n s).1 ≠ none) (n : Node α) :
    n.noNil = true → ∀ (v : V) (s : σ), visitedNodes (Walk vis v n s).trace = n.subnodes := by
  induction n using Node.induction_children with
  | step n ih =>
    intro hn v s
    obtain ⟨h1, h2⟩ := (noNil_iff n).1 hn
    rcases hv : vis.Visit v n s with ⟨_ | w, s1⟩
    · exact absurd (by rw [hv]) (hnn v n s)
    · rw [Walk_trace vis v n s h1, childTrace_of_some vis v w n s s1 hv, subnodes_eq n]
      simp only [visitedNodes, visitedNodes_append, List.append_nil]
      rw [walkList_visitedNodes vis n.children (fun c hc => ih c hc (h2 c hc))]

/-- C18: for every function expression whose `Visit` returns a visitor `w`, the
calls of `Walk` are the `Visit` of the function expression, then the walk of
its `Defaults` with `w`, then the walk of its `Block` with `w` from the state
the defaults left, then the `Done` of the function expression.  The walk of
the defaults is complete before the first call for the block: it starts with
the `Visit` of the defaults and ends with their `Done`, it visits every
non-nil element of the defaults' list when their `Visit` returns a visitor,
and on defaults without nil children every `Visit` in it is closed by its
`Done`.  With a visitor that never returns nil, on a function without nil
children, the nodes visited are exactly the pre-order listing of the defaults
subtree, then that of the block subtree. -/
theorem C18_defaults_before_block (vis : Visitor α V σ) (v w : V) (i : α)
    (defaults block : Node α) (s s1 : σ)
    (h : vis.Visit v (Node.FunctionExpression i defaults block) s = (some w, s1)) :
    (Walk vis v (Node.FunctionExpression i defaults block) s).trace =
      Event.visit v (Node.FunctionExpression i defaults block) ::
        ((Walk vis w defaults s1).trace ++
          ((Walk vis w block (Walk vis w defaults s1).state).trace ++ [Event.done v])) ∧
    (defaults.isNil = false →
      (Walk vis w defaults s1).trace =
        Event.visit w defaults :: (childTrace vis w defaults s1 ++ [Event.done w]) ∧
      ∀ w2, (vis.Visit w defaults s1).1 = some w2 → ∀ c ∈ defaults.children,
        c.isNil = false → Event.visit w2 c ∈ (Walk vis w defaults s1).trace) ∧
    (block.isNil = false →
      (Walk vis w block (Walk vis w defaults s1).state).trace =
        Event.visit w block ::
          (childTrace vis w block (Walk vis w defaults s1).state ++ [Event.done w])) ∧
    (defaults.noNil = true →
      Nested (Walk vis w defaults s1).trace ∧
      dones (Walk vis w defaults s1).trace = visits (Walk vis w defaults s1).trace) ∧
    ((∀ (v2 : V) (n : Node α) (s2 : σ), (vis.Visit v2 n s2).1 ≠ none) →
      defaults.noNil = true → block.noNil = true →
      visitedNodes (Walk vis w defaults s1).trace = defaults.subnodes ∧
      visitedNodes (Walk vis w block (Walk vis w defaults s1).state).trace = block.subnodes ∧
      visitedNodes (Walk vis v (Node.FunctionExpression i defaults block) s).trace =
        Node.FunctionExpression i defaults block :: (defaults.subnodes ++ block.subnodes)) := by
  have ht : (Walk vis v (Node.FunctionExpression i defaults block) s).trace =
      Event.visit v (Node.FunctionExpression i defaults block) ::
        ((Walk vis w defaults s1).trace ++
          ((Walk vis w block (Walk vis w defaults s1).state).trace ++ [Event.done v])) := by
    rw [Walk_trace vis v (Node.FunctionExpression i defaults block) s rfl,
      childTrace_of_some vis v w _ s s1 h]
    simp only [Node.children]
    rw [walkList_cons_trace, walkList_cons_trace]
    simp [walkList]
  refine ⟨ht, ?_, ?_, ?_, ?_⟩
  · intro hd
    refine ⟨Walk_trace vis w defaults s1 hd, ?_⟩
    intro w2 hw2 c hc hcn
    have hv2 : vis.Visit w defaults s1 = (some w2, (vis.Visit w defaults s1).2) := by
      rw [← hw2]
    rw [Walk_trace vis w defaults s1 hd, childTrace_of_some vis w w2 defaults s1 _ hv2]
    exact List.mem_cons_of_mem _
      (List.mem_append_left _ (walkList_visits_child vis w2 defaults.children _ c hc hcn))
  · intro hb
    exact Walk_trace vis w block _ hb
  · intro hd
    have hN : Nested (Walk vis w defaults s1).trace := walk_nested vis defaults hd w s1
    exact ⟨hN, hN.dones_eq_visits⟩
  · intro hnn hd hb
    have e1 := Walk_visitedNodes_all vis hnn defaults hd w s1
    have e2 := Walk_visitedNodes_all vis hnn block hb w (Walk vis w defaults s1).state
    refine ⟨e1, e2, ?_⟩
    rw [ht]
    simp only [visitedNodes, visitedNodes_append, e1, e2, List.append_nil]

/-- Witness of C18: the function `(a=1) => a` walked by the visitor that returns
itself: the defaults, their default, its key and its value are visited and
done before the block is visited. -/
theorem C18_defaults_before_block_witness :
    selfVisitor.Visit 0 exampleFunction 0 = (some 0, 1) ∧
    (Walk selfVisitor 0 exampleFunction 0).trace =
      [ Event.visit 0 exampleFunction,
        Event.visit 0 (Node.FunctionDefaults "defaults"
          [Node.FunctionParameterDefault "default" (Node.Identifier "a")
            (Node.IntegerLiteral "1")]),
        Event.visit 0 (Node.FunctionParameterDefault "default" (Node.Identifier "a")
          (Node.IntegerLiteral "1")),
        Event.visit 0 (Node.Identifier "a"), Event.done 0,
        Event.visit 0 (Node.IntegerLiteral "1"), Event.done 0,
        Event.done 0,
        Event.done 0,
        Event.visit 0 (Node.FunctionBlock "block"
          (Node.FunctionParameters "parameters"
            [Node.FunctionParameter "parameter" (Node.Identifier "a")])
          (Node.IdentifierExpression "a")),
        Event.visit 0 (Node.FunctionParameters "parameters"
          [Node.FunctionParameter "parameter" (Node.Identifier "a")]),
        Event.visit 0 (Node.FunctionParameter "parameter" (Node.Identifier "a")),
        Event.visit 0 (Node.Identifier "a"), Event.done 0,
        Event.done 0,
        Event.done 0,
        Event.visit 0 (Node.IdentifierExpression "a"), Event.done 0,
        Event.done 0,
        Event.done 0 ] ∧
    visitedNodes (Walk selfVisitor 0
      (Node.FunctionDefaults "defaults"
        [Node.FunctionParameterDefault "default" (Node.Identifier "a")
          (Node.IntegerLiteral "1")]) 1).trace =
      [ Node.FunctionDefaults "defaults"
          [Node.FunctionParameterDefault "default" (Node.Identifier "a")
            (Node.IntegerLiteral "1")],
        Node.FunctionParameterDefault "default" (Node.Identifier "a") (Node.IntegerLiteral "1"),
        Node.Identifier "a",
        Node.IntegerLiteral "1" ] := by
  refine ⟨rfl, ?_, ?_⟩
  · exact (C18_defaults_before_block selfVisitor 0 0 "function"
      (Node.FunctionDefaults "defaults"
        [Node.FunctionParameterDefault "default" (Node.Identifier "a")
          (Node.IntegerLiteral "1")])
      (Node.FunctionBlock "block"
        (Node.FunctionParameters "parameters"
          [Node.FunctionParameter "parameter" (Node.Identifier "a")])
        (Node.IdentifierExpression "a")) 0 1 rfl).1.trans rfl
  · rw [((C18_defaults_before_block selfVisitor 0 0 "function"
      (Node.FunctionDefaults "defaults"
        [Node.FunctionParameterDefault "default" (Node.Identifier "a")
          (Node.IntegerLiteral "1")])
      (Node.FunctionBlock "block"
        (Node.FunctionParameters "parameters"
          [Node.FunctionParameter "parameter" (Node.Identifier "a")])
        (Node.IdentifierExpression "a")) 0 1 rfl).2.2.2.2
        (fun _ _ _ => by simp [selfVisitor]) (by decide) (by decide)).1]
    rfl

/-- C19: with a visitor whose `Visit` always returns the visitor itself, on
every tree without nil children, `Walk` (a total function) calls `Visit` on
the nodes of the pre-order listing of the tree, in that order: each node once,
a parent before its children, the children in the order of the child fields. -/
theorem C19_preorder_visits (vis : Visitor α V σ)
    (hself : ∀ (v : V) (n : Node α) (s : σ), (vis.Visit v n s).1 = some v)
    (v : V) (n : Node α) (s : σ) (hn : n.noNil = true) :
    visitedNodes (Walk vis v n s).trace = n.subnodes ∧
    visits (Walk vis v n s).trace = n.subnodes.length ∧
    n.subnodes = n :: n.children.flatMap Node.subnodes := by
  have h1 := Walk_visitedNodes vis hself n hn v s
  refine ⟨h1, ?_, subnodes_eq n⟩
  rw [← h1]
  generalize (Walk vis v n s).trace = t
  induction t with
  | nil => rfl
  | cons e t ih => cases e <;> simp [visits, visitedNodes, ih]

/-- Witness of C19: the conditional is visited before its test, then its
alternate (a call: callee, arguments, pipe argument), then its consequent. -/
theorem C19_preorder_visits_witness :
    exampleConditional.noNil = true ∧
    visitedNodes (Walk selfVisitor 0 exampleConditional 0).trace =
      [ exampleConditional,
        Node.ConditionalExpression "if" (Node.IdentifierExpression "t")
          (Node.CallExpression "call" (Node.IdentifierExpression "f")
            (Node.ObjectExpression "arguments" []) (some (Node.IdentifierExpression "p")))
          (Node.IntegerLiteral "c"),
        Node.IdentifierExpression "t",
        Node.CallExpression "call" (Node.IdentifierExpression "f")
          (Node.ObjectExpression "arguments" []) (some (Node.IdentifierExpression "p")),
        Node.IdentifierExpression "f",
        Node.ObjectExpression "arguments" [],
        Node.IdentifierExpression "p",
        Node.IntegerLiteral "c" ] := by
  refine ⟨by decide, ?_⟩
  rw [(C19_preorder_visits selfVisitor (fun _ _ _ => rfl) 0 exampleConditional 0
    (by decide)).1]
  rfl

/-- C20: visitor hand-over.  When `Visit(n)` on visitor `v` returns the
visitor `w`, the calls of `Walk` are `Visit(n)` on `v`, then one segment per
child of `n`, in order, each the walk of that child with `w` (for a non-nil
child it starts with the child's `Visit` on `w` and ends with its `Done` on
`w`), then the `Done` for `n`, on `v`. -/
theorem C20_visitor_handover (vis : Visitor α V σ) (v w : V) (n : Node α) (s s1 : σ)
    (hnil : n.isNil = false) (h : vis.Visit v n s = (some w, s1)) :
    ∃ segs : List (List (Event α V)),
      List.Forall₂ (fun c seg =>
        (∃ s2, seg = (Walk vis w c s2).trace) ∧
        (c.isNil = false → ∃ inner, seg = Event.visit w c :: (inner ++ [Event.done w])))
        n.children segs ∧
      (Walk vis v n s).trace = Event.visit v n :: (segs.flatten ++ [Event.done v]) := by
  obtain ⟨segs, h1, h2⟩ := walkList_segments vis w n.children s1
  refine ⟨segs, ?_, ?_⟩
  · refine List.Forall₂.imp ?_ h1
    rintro c seg ⟨s2, rfl⟩
    exact ⟨⟨s2, rfl⟩, fun hc => ⟨_, Walk_trace vis w c s2 hc⟩⟩
  · rw [Walk_trace vis v n s hnil, childTrace_of_some vis v w n s s1 h, h2]

/-- Witness of C20: the example visitor 0 returns visitor 1 at the program. -/
theorem C20_visitor_handover_witness :
    exampleTree.isNil = false ∧ exampleVisitor.Visit 0 exampleTree 0 = (some 1, 1) ∧
    ∃ segs : List (List (Event String Nat)),
      List.Forall₂ (fun c seg =>
        (∃ s2, seg = (Walk exampleVisitor 1 c s2).trace) ∧
        (c.isNil = false → ∃ inner, seg = Event.visit 1 c :: (inner ++ [Event.done 1])))
        exampleTree.children segs ∧
      (Walk exampleVisitor 0 exampleTree 0).trace =
        Event.visit 0 exampleTree :: (segs.flatten ++ [Event.done 0]) :=
  ⟨rfl, rfl, C20_visitor_handover exampleVisitor 0 1 exampleTree 0 1 rfl rfl⟩

end semantic
